import Mathlib

/-!
# Verification of the LegacyShop order-management pipeline

Shallow embedding of the order-creation / payment / cancellation pipeline of
the `java-legacyshop` repository.  The repository contains several
near-duplicate variants of the same service; each variant that a claim cites
is embedded in its own namespace, translated directly from its Python source:

* `LegacyShopApi`       — `src/legacyshop-api/app/...`
* `FastapiLegacyshop`   — `src/fastapi_legacyshop/app/...`
* `FastapiRewrite`      — `src/fastapi-rewrite/app/...`
* `PyRewrite`           — `src/python-fastapi-rewrite/order-management-api/app/...`

Monetary values are modelled as exact rationals (`ℚ`); a Python `Decimal`
with two fractional digits is a rational whose product with 100 is an
integer.  `decimal.Decimal.quantize(Decimal("0.01"), ROUND_HALF_UP)` is
`quantize2` below; Python's builtin `round(x, 2)` (bankers' rounding,
half-to-even) is `pyRound2`.  IEEE-754 representation error of the `Float`
columns of the `legacyshop-api` variant is abstracted to exact decimal
arithmetic.  Database sessions are modelled by explicit state passing: a
SQLAlchemy-backed service call maps a committed state to either an error
(in which case the caller keeps the original state — uncommitted work is
rolled back) or a new state plus a response; the `fastapi-rewrite` variant
has no transactions (a module-global dict store), so its operations return
the possibly-mutated state even on error.  The external payment gateway is
modelled as a trace of outcomes, consumed one per HTTP call.  Error
messages are abbreviated to stable strings; claims do not depend on exact
message text.
-/

/-- Round a rational to an integer number of cents, ties away from zero.
This is `Decimal.quantize(Decimal("0.01"), rounding=ROUND_HALF_UP)`. -/
def roundHalfUpCents (q : ℚ) : ℤ :=
  if 0 ≤ q then ⌊q * 100 + 1/2⌋ else -⌊(-q) * 100 + 1/2⌋

/-- The value `quantize2 q` : `q` rounded to two decimal places, round-half-up
(away from zero), as in `decimal.Decimal.quantize` with `ROUND_HALF_UP`. -/
def quantize2 (q : ℚ) : ℚ := (roundHalfUpCents q : ℚ) / 100

/-- Round a rational to an integer number of cents, ties to even.
This is the rounding of Python's builtin `round(x, 2)` on exact values. -/
def roundHalfEvenCents (q : ℚ) : ℤ :=
  let f : ℤ := ⌊q * 100⌋
  let r : ℚ := q * 100 - f
  if r < 1/2 then f
  else if 1/2 < r then f + 1
  else if f % 2 = 0 then f else f + 1

/-- Python's `round(x, 2)` (bankers' rounding) on exact rationals. -/
def pyRound2 (q : ℚ) : ℚ := (roundHalfEvenCents q : ℚ) / 100

/-- A rational is a whole number of cents, i.e. a valid 2-decimal
fixed-point monetary value. -/
def CentMultiple (q : ℚ) : Prop := ∃ n : ℤ, q = (n : ℚ) / 100

/-! ## The `legacyshop-api` variant

Translated from `src/legacyshop-api/app/models/models.py`,
`app/services/discount_service.py`, `app/services/order_service.py`,
`app/services/payment_service.py` and `app/config/business_config.py`.
Timestamps and free-text columns that no embedded operation reads are
omitted. -/

namespace LegacyShopApi

/-- Source `models.OrderStatus`. -/
inductive OrderStatus
  | PENDING
  | PAID
  | SHIPPED
  | CANCELLED
deriving DecidableEq, Repr

/-- Source `models.PaymentStatus`. -/
inductive PaymentStatus
  | PENDING
  | AUTHORIZED
  | FAILED
  | VOIDED
deriving DecidableEq, Repr

/-- Source `models.Product` (the `Float` price column is modelled exactly). -/
structure Product where
  id : ℕ
  sku : String
  name : String
  price : ℚ
  stock_quantity : ℤ
  active : Bool
deriving DecidableEq, Repr

/-- Source `Product.decrement_stock`: raises `ValueError` on insufficient stock. -/
def Product.decrement_stock (p : Product) (quantity : ℤ) : Except String Product :=
  if p.stock_quantity < quantity then .error "Insufficient stock"
  else .ok { p with stock_quantity := p.stock_quantity - quantity }

/-- Source `Product.increment_stock` (used by cancellation compensation). -/
def Product.increment_stock (p : Product) (quantity : ℤ) : Product :=
  { p with stock_quantity := p.stock_quantity + quantity }

/-- Source `models.Customer`. -/
structure Customer where
  id : ℕ
  email : String
  first_name : String
  last_name : String
deriving DecidableEq, Repr

/-- Source `models.OrderItem`. -/
structure OrderItem where
  order_id : ℕ
  product_id : ℕ
  product_sku : String
  product_name : String
  quantity : ℤ
  unit_price : ℚ
  subtotal : ℚ
deriving DecidableEq, Repr

/-- Source `models.Order` (items and payment live in their own tables below). -/
structure Order where
  id : ℕ
  customer_id : ℕ
  status : OrderStatus
  idempotency_key : Option String
  subtotal : ℚ
  discount_amount : ℚ
  total : ℚ
deriving DecidableEq, Repr

/-- Source `Order.can_be_cancelled`. -/
def Order.can_be_cancelled (o : Order) : Bool :=
  o.status == OrderStatus.PENDING || o.status == OrderStatus.PAID

/-- Source `Order.cancel`: raises `ValueError` unless cancellable. -/
def Order.cancel (o : Order) : Except String Order :=
  if o.can_be_cancelled then .ok { o with status := OrderStatus.CANCELLED }
  else .error "Order cannot be cancelled"

/-- Source `Order.mark_as_paid`: raises `ValueError` unless `PENDING`. -/
def Order.mark_as_paid (o : Order) : Except String Order :=
  if o.status == OrderStatus.PENDING then .ok { o with status := OrderStatus.PAID }
  else .error "Order must be PENDING to mark as PAID"

/-- Source `Order.calculate_totals` over the order's items:
`subtotal = sum(item.subtotal)`, `total = round(subtotal - discount, 2)`. -/
def Order.calculate_totals (o : Order) (items : List OrderItem) : Order :=
  let subtotal := (items.map (fun it => it.subtotal)).sum
  { o with subtotal := subtotal, total := pyRound2 (subtotal - o.discount_amount) }

/-- Source `Order.apply_discount`: `discount = round(d, 2)` then recompute totals. -/
def Order.apply_discount (o : Order) (items : List OrderItem) (discount_amount : ℚ) : Order :=
  Order.calculate_totals { o with discount_amount := pyRound2 discount_amount } items

/-- Source `models.Payment`. -/
structure Payment where
  id : ℕ
  order_id : ℕ
  amount : ℚ
  status : PaymentStatus
  external_authorization_id : Option String
  retry_attempts : ℕ
  error_message : Option String
deriving DecidableEq, Repr

/-- Source `Payment.authorize`. -/
def Payment.authorize (p : Payment) (authorization_id : String) : Payment :=
  { p with status := PaymentStatus.AUTHORIZED,
           external_authorization_id := some authorization_id }

/-- Source `Payment.fail`. -/
def Payment.fail (p : Payment) (msg : String) : Payment :=
  { p with status := PaymentStatus.FAILED, error_message := some msg }

/-- Source `Payment.void`: raises `ValueError` unless `AUTHORIZED`. -/
def Payment.void (p : Payment) : Except String Payment :=
  if p.status == PaymentStatus.AUTHORIZED then .ok { p with status := PaymentStatus.VOIDED }
  else .error "Can only void authorized payments"

/-- Source `Payment.increment_retry_attempts`. -/
def Payment.increment_retry_attempts (p : Payment) : Payment :=
  { p with retry_attempts := p.retry_attempts + 1 }

/-- Source `models.IdempotencyRecord` (no request hash and no stored response:
only the resulting entity id and status are recorded). -/
structure IdempotencyRecord where
  idempotency_key : String
  operation_type : String
  result_entity_id : Option ℕ
  result_status : String
deriving DecidableEq, Repr

/-- Source `models.AuditLog`. -/
structure AuditLog where
  entity_type : String
  entity_id : ℕ
  action : String
  details : String
deriving DecidableEq, Repr

/-- The relational store behind one SQLAlchemy session. -/
structure DB where
  products : List Product
  customers : List Customer
  orders : List Order
  order_items : List OrderItem
  payments : List Payment
  idempotency_records : List IdempotencyRecord
  audit_logs : List AuditLog
  next_customer_id : ℕ
  next_order_id : ℕ
  next_payment_id : ℕ
deriving DecidableEq, Repr

/-- Source `db.query(Order).filter(Order.id == order_id).first()`. -/
def DB.findOrderById (db : DB) (order_id : ℕ) : Option Order :=
  db.orders.find? (fun o => o.id == order_id)

/-- Source `db.query(Order).filter(Order.idempotency_key == key).first()`. -/
def DB.findOrderByKey (db : DB) (key : String) : Option Order :=
  db.orders.find? (fun o => o.idempotency_key == some key)

/-- Source `db.query(Product).filter(Product.sku == sku).first()`. -/
def DB.findProductBySku (db : DB) (sku : String) : Option Product :=
  db.products.find? (fun p => p.sku == sku)

/-- Source `db.query(Product).filter(Product.id == pid).first()`. -/
def DB.findProductById (db : DB) (pid : ℕ) : Option Product :=
  db.products.find? (fun p => p.id == pid)

/-- Source `db.query(Payment).filter(Payment.order_id == oid).first()`. -/
def DB.findPaymentByOrderId (db : DB) (oid : ℕ) : Option Payment :=
  db.payments.find? (fun p => p.order_id == oid)

/-- Source `db.query(Payment).filter(Payment.id == pid).first()`. -/
def DB.findPaymentById (db : DB) (pid : ℕ) : Option Payment :=
  db.payments.find? (fun p => p.id == pid)

/-- The `order.items` relationship. -/
def DB.itemsOfOrder (db : DB) (oid : ℕ) : List OrderItem :=
  db.order_items.filter (fun it => it.order_id == oid)

/-- In-place update of a row, keyed by order id. -/
def DB.updateOrder (db : DB) (oid : ℕ) (f : Order → Order) : DB :=
  { db with orders := db.orders.map (fun o => if o.id == oid then f o else o) }

/-- In-place update of a row, keyed by product id. -/
def DB.updateProduct (db : DB) (pid : ℕ) (f : Product → Product) : DB :=
  { db with products := db.products.map (fun p => if p.id == pid then f p else p) }

/-- In-place update of a row, keyed by payment id. -/
def DB.updatePayment (db : DB) (pid : ℕ) (f : Payment → Payment) : DB :=
  { db with payments := db.payments.map (fun p => if p.id == pid then f p else p) }

/-- Source `schemas.OrderItemRequest`. -/
structure OrderItemRequest where
  productSku : String
  quantity : ℤ
deriving DecidableEq, Repr

/-- Source `schemas.OrderCreateRequest`. -/
structure OrderCreateRequest where
  customerEmail : String
  items : List OrderItemRequest
deriving DecidableEq, Repr

/-- Source `schemas.OrderResponse` (item responses carry the same fields as the
item rows, so they are reused verbatim). -/
structure OrderResponse where
  id : ℕ
  customerEmail : String
  status : OrderStatus
  subtotal : ℚ
  discountAmount : ℚ
  total : ℚ
  idempotencyKey : Option String
  items : List OrderItem
deriving DecidableEq, Repr

/-- Source `services.exceptions`: the two exception kinds the order pipeline
raises. -/
inductive ServiceError
  | businessValidation (msg : String)
  | resourceNotFound (msg : String)
deriving DecidableEq, Repr

/-- Business configuration (`config/business_config.py`). -/
def tier1_threshold : ℚ := 50
/-- Rate 5%. -/
def tier1_discount : ℚ := 5 / 100
/-- Threshold of the second tier. -/
def tier2_threshold : ℚ := 100
/-- Rate 10%. -/
def tier2_discount : ℚ := 10 / 100
/-- Threshold of the third tier. -/
def tier3_threshold : ℚ := 200
/-- Rate 15%. -/
def tier3_discount : ℚ := 15 / 100
/-- Source `config.payment_max_attempts`. -/
def payment_max_attempts : ℕ := 2

/-- Source `DiscountService.calculate_discount` (the `subtotal is None` branch of
the Python source does not arise for a total function on `ℚ`). -/
def calculate_discount (subtotal : ℚ) : ℚ :=
  if subtotal ≥ tier3_threshold then quantize2 (subtotal * tier3_discount)
  else if subtotal ≥ tier2_threshold then quantize2 (subtotal * tier2_discount)
  else if subtotal ≥ tier1_threshold then quantize2 (subtotal * tier1_discount)
  else quantize2 0

/-- Source `OrderService._find_or_create_customer`. -/
def find_or_create_customer (db : DB) (email : String) : DB × Customer :=
  match db.customers.find? (fun c => c.email == email) with
  | some customer => (db, customer)
  | none =>
    let local_part := (email.splitOn "@").headD ""
    let letters := String.mk (local_part.toList.filter Char.isAlpha)
    let first_name := if letters.isEmpty then "Customer" else letters
    let customer : Customer :=
      { id := db.next_customer_id, email := email,
        first_name := first_name, last_name := "Customer" }
    ({ db with customers := db.customers ++ [customer],
               next_customer_id := db.next_customer_id + 1 }, customer)

/-- Source `OrderService._order_to_response`. -/
def order_to_response (db : DB) (order : Order) : OrderResponse :=
  { id := order.id,
    customerEmail :=
      ((db.customers.find? (fun c => c.id == order.customer_id)).map
        (fun c => c.email)).getD "",
    status := order.status,
    subtotal := order.subtotal,
    discountAmount := order.discount_amount,
    total := order.total,
    idempotencyKey := order.idempotency_key,
    items := db.itemsOfOrder order.id }

/-- Source `OrderService._process_order_item`: validate one line item, snapshot it
and decrement stock inside the open unit of work. -/
def process_order_item (db : DB) (order : Order) (item_request : OrderItemRequest) :
    Except ServiceError DB :=
  match db.findProductBySku item_request.productSku with
  | none => .error (.resourceNotFound "Product not found with SKU")
  | some product =>
    if !product.active then
      .error (.businessValidation "Product is not available")
    else if product.stock_quantity < item_request.quantity then
      .error (.businessValidation "Insufficient stock for product")
    else
      let unit_price := product.price
      let order_item : OrderItem :=
        { order_id := order.id, product_id := product.id,
          product_sku := product.sku, product_name := product.name,
          quantity := item_request.quantity, unit_price := unit_price,
          subtotal := pyRound2 (unit_price * (item_request.quantity : ℚ)) }
      match product.decrement_stock item_request.quantity with
      | .error e => .error (.businessValidation e)
      | .ok product2 =>
        .ok { (db.updateProduct product.id (fun _ => product2)) with
              order_items := db.order_items ++ [order_item] }

/-- The `for item_request in request.items` loop of `create_order`. -/
def process_items (order : Order) :
    DB → List OrderItemRequest → Except ServiceError DB
  | db, [] => .ok db
  | db, r :: rs =>
    match process_order_item db order r with
    | .error e => .error e
    | .ok db2 => process_items order db2 rs

/-- Source `OrderService.create_order`.  An error means the open unit of work was
rolled back: the caller keeps the pre-call state. -/
def create_order (db : DB) (request : OrderCreateRequest)
    (idempotency_key : Option String) : Except ServiceError (DB × OrderResponse) :=
  match idempotency_key.bind (fun k => db.findOrderByKey k) with
  | some existing_order => .ok (db, order_to_response db existing_order)
  | none =>
    let (db1, customer) := find_or_create_customer db request.customerEmail
    let order : Order :=
      { id := db1.next_order_id, customer_id := customer.id,
        status := OrderStatus.PENDING, idempotency_key := idempotency_key,
        subtotal := 0, discount_amount := 0, total := 0 }
    let db2 := { db1 with orders := db1.orders ++ [order],
                          next_order_id := db1.next_order_id + 1 }
    match process_items order db2 request.items with
    | .error e => .error e
    | .ok db3 =>
      let items := db3.itemsOfOrder order.id
      let order := order.calculate_totals items
      let discount_amount := calculate_discount order.subtotal
      let order := order.apply_discount items discount_amount
      if order.total < 1/100 then
        .error (.businessValidation "Order total must be at least one cent")
      else
        let db4 := db3.updateOrder order.id (fun _ => order)
        let db5 : DB :=
          match idempotency_key with
          | some k =>
            let record : IdempotencyRecord :=
              { idempotency_key := k, operation_type := "ORDER_CREATE",
                result_entity_id := some order.id, result_status := "PENDING" }
            { db4 with idempotency_records := db4.idempotency_records ++ [record] }
          | none => db4
        let log : AuditLog :=
          { entity_type := "ORDER", entity_id := order.id,
            action := "CREATED", details := "Order created" }
        let db6 : DB := { db5 with audit_logs := db5.audit_logs ++ [log] }
        .ok (db6, order_to_response db6 order)

/-- Source `PaymentService.void_payment` (the void is a local state transition;
no external endpoint is involved in this variant). -/
def void_payment (db : DB) (payment_id : ℕ) : Except ServiceError DB :=
  match db.findPaymentById payment_id with
  | none => .error (.resourceNotFound "Payment not found")
  | some payment =>
    match payment.void with
    | .error e => .error (.businessValidation e)
    | .ok p2 => .ok (db.updatePayment payment_id (fun _ => p2))

/-- One iteration of `cancel_order`'s stock-restoration loop: look the
product up by id and add the item's quantity back (skip if missing). -/
def restore_stock_step (acc : DB) (item : OrderItem) : DB :=
  match acc.findProductById item.product_id with
  | some _ => acc.updateProduct item.product_id (fun p => p.increment_stock item.quantity)
  | none => acc

/-- Source `if order.payment and order.payment.status == AUTHORIZED:
void_payment(...)` — void the order's payment when it is authorized. -/
def void_if_authorized (db : DB) (oid : ℕ) : Except ServiceError DB :=
  match db.findPaymentByOrderId oid with
  | some payment =>
    if payment.status == PaymentStatus.AUTHORIZED then void_payment db payment.id
    else .ok db
  | none => .ok db

/-- Source `OrderService.cancel_order`: restore stock, void an authorized payment,
flip the status, audit. -/
def cancel_order (db : DB) (order_id : ℕ) : Except ServiceError (DB × OrderResponse) :=
  match db.findOrderById order_id with
  | none => .error (.resourceNotFound "Order not found")
  | some order =>
    if !order.can_be_cancelled then
      .error (.businessValidation "Order cannot be cancelled in status")
    else
      let items := db.itemsOfOrder order.id
      let db1 := items.foldl restore_stock_step db
      match void_if_authorized db1 order.id with
      | .error e => .error e
      | .ok db2 =>
        match order.cancel with
        | .error e => .error (.businessValidation e)
        | .ok order2 =>
          let db3 := db2.updateOrder order.id (fun _ => order2)
          let log : AuditLog :=
            { entity_type := "ORDER", entity_id := order.id,
              action := "CANCELLED", details := "Customer requested cancellation" }
          let db4 : DB := { db3 with audit_logs := db3.audit_logs ++ [log] }
          .ok (db4, order_to_response db4 order2)

/-- One outcome of a `POST` to the external payment gateway. -/
inductive GatewayOutcome
  | success (authorization_id : String)
  | httpStatus (status_code : ℕ)
  | networkError
deriving DecidableEq, Repr

/-- Source `exceptions.PaymentException` payload. -/
structure PaymentError where
  message : String
  retryable : Bool
deriving DecidableEq, Repr

/-- Result of one `authorize_payment` body execution. -/
inductive AttemptResult
  | ok (payment : Payment)
  | notFound (msg : String)
  | paymentError (e : PaymentError)
deriving DecidableEq, Repr

/-- The `try`/`except` body of `PaymentService.authorize_payment` once the
payment row is selected: call the gateway, classify the outcome.  A missing
trace entry is treated as a network failure.  In the success case
`order.mark_as_paid()` may itself raise `ValueError` (order not `PENDING`),
which the generic `except Exception` handler converts into a retryable
`PaymentException` after marking the just-authorized payment `FAILED`. -/
def call_and_classify (db : DB) (order : Order) (payment : Payment)
    (gateway : List GatewayOutcome) : DB × AttemptResult × List GatewayOutcome :=
  let (outcome, rest) :=
    match gateway with
    | [] => (GatewayOutcome.networkError, ([] : List GatewayOutcome))
    | g :: gs => (g, gs)
  match outcome with
  | .success auth_id =>
    let payment2 := payment.authorize auth_id
    let db1 := db.updatePayment payment.id (fun _ => payment2)
    (match order.mark_as_paid with
     | .ok order2 =>
       (db1.updateOrder order.id (fun _ => order2), .ok payment2, rest)
     | .error msg =>
       let payment3 := (payment2.increment_retry_attempts).fail msg
       (db1.updatePayment payment.id (fun _ => payment3),
        .paymentError { message := msg, retryable := true }, rest))
  | .httpStatus code =>
    let payment1 := payment.increment_retry_attempts
    if 400 ≤ code ∧ code < 500 then
      (db.updatePayment payment.id
         (fun _ => payment1.fail "Payment authorization failed"),
       .paymentError { message := "Payment authorization failed", retryable := false },
       rest)
    else if 500 ≤ code ∧ code < 600 then
      (db.updatePayment payment.id
         (fun _ => payment1.fail "Payment service temporarily unavailable"),
       .paymentError { message := "Payment service temporarily unavailable",
                       retryable := true },
       rest)
    else
      (db.updatePayment payment.id
         (fun _ => payment1.fail "Unexpected payment error"),
       .paymentError { message := "Unexpected payment error", retryable := false },
       rest)
  | .networkError =>
    let payment1 := payment.increment_retry_attempts
    (db.updatePayment payment.id
       (fun _ => payment1.fail "Payment authorization failed"),
     .paymentError { message := "Payment authorization failed", retryable := true },
     rest)

/-- One execution of the `PaymentService.authorize_payment` body: resolve
the order, select or create the `Payment` row, then (unless an `AUTHORIZED`
payment already short-circuits) call the gateway. -/
def authorize_attempt (db : DB) (order_id : ℕ) (gateway : List GatewayOutcome) :
    DB × AttemptResult × List GatewayOutcome :=
  match db.findOrderById order_id with
  | none => (db, .notFound "Order not found", gateway)
  | some order =>
    match db.findPaymentByOrderId order.id with
    | some existing_payment =>
      if existing_payment.status == PaymentStatus.AUTHORIZED then
        (db, .ok existing_payment, gateway)
      else if existing_payment.status == PaymentStatus.PENDING then
        call_and_classify db order existing_payment gateway
      else
        let payment : Payment :=
          { id := db.next_payment_id, order_id := order.id, amount := order.total,
            status := PaymentStatus.PENDING, external_authorization_id := none,
            retry_attempts := 0, error_message := none }
        let db1 := { db with payments := db.payments ++ [payment],
                             next_payment_id := db.next_payment_id + 1 }
        call_and_classify db1 order payment gateway
    | none =>
      let payment : Payment :=
        { id := db.next_payment_id, order_id := order.id, amount := order.total,
          status := PaymentStatus.PENDING, external_authorization_id := none,
          retry_attempts := 0, error_message := none }
      let db1 := { db with payments := db.payments ++ [payment],
                           next_payment_id := db.next_payment_id + 1 }
      call_and_classify db1 order payment gateway

/-- The `tenacity` driver: `stop_after_attempt(config.payment_max_attempts)`
with `retry_if_exception_type(PaymentException)` and `reraise=True`.  Note
the predicate keys on the exception *type* only: every `PaymentException`
is retried, whether or not its `retryable` flag is set.
`ResourceNotFoundException` is not a `PaymentException` and propagates. -/
def attempt_loop (order_id : ℕ) :
    DB → List GatewayOutcome → ℕ → DB × AttemptResult × List GatewayOutcome
  | db, gateway, 0 => (db, .paymentError { message := "no attempts", retryable := false }, gateway)
  | db, gateway, n + 1 =>
    match authorize_attempt db order_id gateway with
    | (db1, .paymentError e, rest) =>
      if n = 0 then (db1, .paymentError e, rest)
      else attempt_loop order_id db1 rest n
    | r => r

/-- Source `PaymentService.authorize_payment` as invoked through its `@retry`
decorator. -/
def authorize_payment (db : DB) (order_id : ℕ) (gateway : List GatewayOutcome) :
    DB × AttemptResult × List GatewayOutcome :=
  attempt_loop order_id db gateway payment_max_attempts

end LegacyShopApi

/-! ## The `fastapi_legacyshop` variant

Translated from `src/fastapi_legacyshop/app/utils/money.py`,
`app/services/order_service.py` and `app/services/payment_service.py`.
The service layer imports `OrderEntity` (with `SHIPPED` and
`can_be_cancelled`) from the package's entity definitions; columns not read
by the embedded operations are omitted. -/

namespace FastapiLegacyshop

/-- Source `utils/money.py` `quantize_2`: `Decimal(str(value)).quantize(".01",
ROUND_HALF_UP)`. -/
def quantize_2 (value : ℚ) : ℚ := quantize2 value

/-- Source `OrderStatus` of the entity the order service operates on. -/
inductive OrderStatus
  | PENDING
  | PAID
  | SHIPPED
  | CANCELLED
deriving DecidableEq, Repr

/-- Source `PaymentStatus` (`models/payment.py`). -/
inductive PaymentStatus
  | CREATED
  | AUTHORIZED
  | FAILED
  | VOIDED
deriving DecidableEq, Repr

/-- Product row (stock ledger slice used by cancellation). -/
structure Product where
  id : ℕ
  stock_quantity : ℤ
deriving DecidableEq, Repr

/-- Order item row (slice used by cancellation). -/
structure OrderItem where
  order_id : ℕ
  product_id : ℕ
  quantity : ℤ
deriving DecidableEq, Repr

/-- Order row (slice used by authorize/cancel). -/
structure OrderEntity where
  id : ℕ
  status : OrderStatus
deriving DecidableEq, Repr

/-- Source `OrderEntity.can_be_cancelled`. -/
def can_be_cancelled (o : OrderEntity) : Bool :=
  o.status == OrderStatus.PENDING || o.status == OrderStatus.PAID

/-- Payment row (slice used by void/cancel). -/
structure Payment where
  id : ℕ
  order_id : ℕ
  status : PaymentStatus
  external_payment_id : Option String
deriving DecidableEq, Repr

/-- The session state of this variant. -/
structure DB where
  products : List Product
  orders : List OrderEntity
  order_items : List OrderItem
  payments : List Payment
  audit_logs : List String
deriving DecidableEq, Repr

/-- In-place product row update. -/
def DB.updateProduct (db : DB) (pid : ℕ) (f : Product → Product) : DB :=
  { db with products := db.products.map (fun p => if p.id == pid then f p else p) }

/-- In-place order row update. -/
def DB.updateOrder (db : DB) (oid : ℕ) (f : OrderEntity → OrderEntity) : DB :=
  { db with orders := db.orders.map (fun o => if o.id == oid then f o else o) }

/-- In-place payment row update. -/
def DB.updatePayment (db : DB) (pid : ℕ) (f : Payment → Payment) : DB :=
  { db with payments := db.payments.map (fun p => if p.id == pid then f p else p) }

/-- Outcome of the `POST .../void` call. -/
inductive VoidOutcome
  | http (status_code : ℕ)
  | exception
deriving DecidableEq, Repr

/-- Source `PaymentService.void_payment`: returns silently when there is no
external payment id; marks the payment `VOIDED` only on HTTP 200; any
other status does nothing; any exception is swallowed (audit-logged). -/
def void_payment (db : DB) (payment : Payment) (outcome : VoidOutcome) : DB :=
  if payment.external_payment_id.isNone then db
  else
    match outcome with
    | .http status_code =>
      if status_code == 200 then
        let db1 := db.updatePayment payment.id
          (fun p => { p with status := PaymentStatus.VOIDED })
        { db1 with audit_logs := db1.audit_logs ++ ["PAYMENT_VOIDED"] }
      else db
    | .exception => { db with audit_logs := db.audit_logs ++ ["PAYMENT_FAILED"] }

/-- Source `OrderService.authorize_payment`: rejects unless the order is
`PENDING`; the remaining body is a stub (`pass`). -/
def authorize_payment (db : DB) (order_id : ℕ) : Except String DB :=
  match db.orders.find? (fun o => o.id == order_id) with
  | none => .error "Order not found"
  | some order =>
    if order.status != OrderStatus.PENDING then
      .error "Cannot authorize payment for order in status"
    else .ok db

/-- One iteration of `cancel_order`'s stock-restoration loop: restore the
item's quantity and audit, skipping missing products. -/
def restock_step (acc : DB) (item : OrderItem) : DB :=
  match acc.products.find? (fun p => p.id == item.product_id) with
  | some _ =>
    let acc1 := acc.updateProduct item.product_id
      (fun p => { p with stock_quantity := p.stock_quantity + item.quantity })
    { acc1 with audit_logs := acc1.audit_logs ++ ["STOCK_INCREMENTED"] }
  | none => acc

/-- Source `OrderService.cancel_order`: restore stock per item, void an
`AUTHORIZED` payment (failures swallowed by `void_payment`), set the
status to `CANCELLED`, audit. -/
def cancel_order (db : DB) (order_id : ℕ) (void_outcome : VoidOutcome) :
    Except String DB :=
  match db.orders.find? (fun o => o.id == order_id) with
  | none => .error "Order not found"
  | some order =>
    if !can_be_cancelled order then .error "Cannot cancel order in status"
    else
      let items := db.order_items.filter (fun it => it.order_id == order.id)
      let db1 := items.foldl restock_step db
      let db2 :=
        match db1.payments.find? (fun p => p.order_id == order.id) with
        | some payment =>
          if payment.status == PaymentStatus.AUTHORIZED then
            void_payment db1 payment void_outcome
          else db1
        | none => db1
      let db3 := db2.updateOrder order.id
        (fun o => { o with status := OrderStatus.CANCELLED })
      .ok { db3 with audit_logs := db3.audit_logs ++ ["ORDER_CANCELLED"] }

end FastapiLegacyshop

/-! ## The `fastapi-rewrite` variant

Translated from `src/fastapi-rewrite/app/services.py` and
`app/database.py`.  The store is a module-global dict without transactions:
operations return the (possibly already mutated) state together with the
result, and nothing is rolled back on error. -/

namespace FastapiRewrite

/-- Source `models.OrderStatus`. -/
inductive OrderStatus
  | CREATED
  | AUTHORIZED
  | CANCELLED
  | SHIPPED
deriving DecidableEq, Repr

/-- Source `models.Product`. -/
structure Product where
  id : ℕ
  name : String
  price : ℚ
  stock : ℤ
deriving DecidableEq, Repr

/-- Source `models.OrderItemRequest`. -/
structure OrderItemRequest where
  product_id : ℕ
  quantity : ℤ
deriving DecidableEq, Repr

/-- Source `models.CreateOrderRequest`. -/
structure CreateOrderRequest where
  customer_email : String
  items : List OrderItemRequest
deriving DecidableEq, Repr

/-- Source `models.OrderItem`. -/
structure OrderItem where
  id : ℕ
  order_id : ℕ
  product_id : ℕ
  product_name : String
  quantity : ℤ
  price : ℚ
deriving DecidableEq, Repr

/-- Source `models.Order`. -/
structure Order where
  id : ℕ
  customer_email : String
  status : OrderStatus
  items : List OrderItem
  total_amount : ℚ
deriving DecidableEq, Repr

/-- Source `database`: idempotency record. -/
structure IdempotencyRecord where
  idempotency_key : String
  order_id : ℕ
deriving DecidableEq, Repr

/-- The module-global in-memory store of `app/database.py`. -/
structure DBState where
  products : List Product
  orders : List Order
  idempotency_records : List IdempotencyRecord
  order_id_counter : ℕ
  order_item_id_counter : ℕ
deriving DecidableEq, Repr

/-- RFC-7807 problem payload (only the fields claims read). -/
structure Problem where
  status : ℕ
  title : String
deriving DecidableEq, Repr

/-- Source `OrderService.calculate_discount` (no quantization). -/
def calculate_discount (subtotal : ℚ) : ℚ :=
  if subtotal ≥ 200 then subtotal * (15 / 100)
  else if subtotal ≥ 100 then subtotal * (10 / 100)
  else if subtotal ≥ 50 then subtotal * (5 / 100)
  else 0

/-- The `for req_item in request.items` loop of `create_order`: stock is
updated in the global store as the loop goes, so an error keeps every
decrement already applied. -/
def process_items :
    DBState → List OrderItemRequest → List OrderItem → ℚ →
      DBState × Except Problem (List OrderItem × ℚ)
  | s, [], acc, subtotal => (s, .ok (acc, subtotal))
  | s, req_item :: rest, acc, subtotal =>
    match s.products.find? (fun p => p.id == req_item.product_id) with
    | none => (s, .error { status := 404, title := "Product Not Found" })
    | some product =>
      if product.stock < req_item.quantity then
        (s, .error { status := 409, title := "Insufficient Stock" })
      else
        let new_stock := product.stock - req_item.quantity
        let products1 := s.products.map
          (fun p => if p.id == req_item.product_id then { p with stock := new_stock } else p)
        let s1 := { s with products := products1 }
        let item_id := s1.order_item_id_counter
        let s2 := { s1 with order_item_id_counter := item_id + 1 }
        let order_item : OrderItem :=
          { id := item_id, order_id := 0, product_id := product.id,
            product_name := product.name, quantity := req_item.quantity,
            price := product.price }
        process_items s2 rest (acc ++ [order_item])
          (subtotal + product.price * (req_item.quantity : ℚ))

/-- Source `OrderService.create_order`: any reuse of the idempotency key is a 409
(no replay); otherwise decrement stock per item, price, persist the order
and the idempotency record. -/
def create_order (s : DBState) (request : CreateOrderRequest)
    (idempotency_key : String) : DBState × Except Problem Order :=
  match s.idempotency_records.find? (fun r => r.idempotency_key == idempotency_key) with
  | some _ => (s, .error { status := 409, title := "Duplicate Request" })
  | none =>
    match process_items s request.items [] 0 with
    | (s1, .error e) => (s1, .error e)
    | (s1, .ok (order_items, subtotal)) =>
      let discount := calculate_discount subtotal
      let total_amount := subtotal - discount
      let oid := s1.order_id_counter
      let order : Order :=
        { id := oid, customer_email := request.customer_email,
          status := OrderStatus.CREATED,
          items := order_items.map (fun it => { it with order_id := oid }),
          total_amount := total_amount }
      let record : IdempotencyRecord :=
        { idempotency_key := idempotency_key, order_id := oid }
      let s2 : DBState :=
        { s1 with orders := s1.orders ++ [order], order_id_counter := oid + 1,
                  idempotency_records := s1.idempotency_records ++ [record] }
      (s2, .ok order)

end FastapiRewrite

/-! ## The `python-fastapi-rewrite` variant

Only its `DiscountService` is needed by the claims
(`order-management-api/app/services.py`). -/

namespace PyRewrite

/-- Source `DiscountService.DISCOUNT_TIERS`: 10% from $1000, 5% from $500. -/
def DISCOUNT_TIERS : List (ℚ × ℚ) := [(1000, 10 / 100), (500, 5 / 100)]

/-- Source `DiscountService.calculate_discount`: first tier whose threshold is
met wins; the product is returned unquantized. -/
def calculate_discount (subtotal : ℚ) : ℚ :=
  match DISCOUNT_TIERS.find? (fun t => decide (subtotal ≥ t.1)) with
  | some t => subtotal * t.2
  | none => 0

end PyRewrite

/-! ## Claim-side (specification) definitions

These follow the words of the spec, for comparison against the embedded
code. -/

/-- Modelled from the spec: the discount rate of the highest tier whose
threshold is met — 15% from 200.00, 10% from 100.00, 5% from 50.00
(inclusive lower bounds), else 0. -/
def specDiscountRate (S : ℚ) : ℚ :=
  if S ≥ 200 then 15 / 100
  else if S ≥ 100 then 10 / 100
  else if S ≥ 50 then 5 / 100
  else 0

/-- Modelled from the spec: `round2`, quantization to 2 decimals with
round-half-up. -/
def specRound2 (q : ℚ) : ℚ := quantize2 q

/-- Modelled from the spec: the forward order-status transitions —
`PENDING → PAID`, `PENDING → CANCELLED`, `PAID → CANCELLED`, or staying
put.  `CANCELLED` and `SHIPPED` admit no outgoing move, and no transition
goes backward. -/
def statusForward : LegacyShopApi.OrderStatus → LegacyShopApi.OrderStatus → Prop :=
  fun s s2 => s = s2 ∨
    (s = LegacyShopApi.OrderStatus.PENDING ∧ s2 = LegacyShopApi.OrderStatus.PAID) ∨
    ((s = LegacyShopApi.OrderStatus.PENDING ∨ s = LegacyShopApi.OrderStatus.PAID) ∧
      s2 = LegacyShopApi.OrderStatus.CANCELLED)

/-- Row-provenance relation used by preservation statements: the new order
row keeps the id and all monetary fields of the old row and moves its
status only forward. -/
def orderEvolves (o o2 : LegacyShopApi.Order) : Prop :=
  o.id = o2.id ∧ o2.subtotal = o.subtotal ∧ o2.discount_amount = o.discount_amount ∧
    o2.total = o.total ∧ statusForward o.status o2.status

/-- Total quantity the given line items request of one product. -/
def sumQty (items : List LegacyShopApi.OrderItem) (pid : ℕ) : ℤ :=
  ((items.filter (fun it => it.product_id == pid)).map (fun it => it.quantity)).sum

/-- The money invariant claimed for every accepted order: the stored total
is exactly the subtotal minus the discount and is at least one cent. -/
def moneyInvariant (o : LegacyShopApi.Order) : Prop :=
  o.total = o.subtotal - o.discount_amount ∧ 1/100 ≤ o.total

/-! ## Concrete instances used by counterexamples and witnesses -/

/-- A one-product catalog for the `fastapi-rewrite` duplicate-key run. -/
def c1state : FastapiRewrite.DBState :=
  { products := [⟨1, "Widget A", 10, 100⟩], orders := [],
    idempotency_records := [], order_id_counter := 1, order_item_id_counter := 1 }

/-- A one-item request submitted twice under the same idempotency key. -/
def c1request : FastapiRewrite.CreateOrderRequest :=
  { customer_email := "alice@example.com", items := [⟨1, 1⟩] }

/-- Store of the `legacyshop-api` replay witness: an order already exists
under key `"K"`. -/
def c1wdb : LegacyShopApi.DB :=
  { products := [], customers := [⟨1, "a@b.example", "A", "Customer"⟩],
    orders := [⟨1, 1, .PENDING, some "K", 50, 0, 50⟩], order_items := [],
    payments := [], idempotency_records := [], audit_logs := [],
    next_customer_id := 2, next_order_id := 2, next_payment_id := 1 }

/-- A request whose body differs from anything previously stored. -/
def c1wrequest : LegacyShopApi.OrderCreateRequest :=
  { customerEmail := "other@b.example", items := [] }

/-- Store of the `fastapi-rewrite` conflict witness: a record already
exists under key `"K"`. -/
def c1wstate : FastapiRewrite.DBState :=
  { products := [], orders := [], idempotency_records := [⟨"K", 1⟩],
    order_id_counter := 2, order_item_id_counter := 1 }

/-- A fresh request replayed against `c1wstate`. -/
def c1wrequest2 : FastapiRewrite.CreateOrderRequest :=
  { customer_email := "x@y.example", items := [] }

/-- Store of the retry-policy run: one `PENDING` order, no payment yet. -/
def c2db : LegacyShopApi.DB :=
  { products := [], customers := [], orders := [⟨1, 1, .PENDING, none, 100, 0, 100⟩],
    order_items := [], payments := [], idempotency_records := [], audit_logs := [],
    next_customer_id := 1, next_order_id := 2, next_payment_id := 1 }

/-- Catalog for the partial-decrement run: product 2 is out of stock. -/
def c3state : FastapiRewrite.DBState :=
  { products := [⟨1, "Widget A", 10, 5⟩, ⟨2, "Widget B", 25, 0⟩],
    orders := [], idempotency_records := [], order_id_counter := 1,
    order_item_id_counter := 1 }

/-- A two-line request whose second line exceeds stock. -/
def c3request : FastapiRewrite.CreateOrderRequest :=
  { customer_email := "alice@example.com", items := [⟨1, 2⟩, ⟨2, 1⟩] }

/-- Store with an already-`PAID` order whose payment is `AUTHORIZED`. -/
def c5db : LegacyShopApi.DB :=
  { products := [], customers := [], orders := [⟨1, 1, .PAID, none, 100, 0, 100⟩],
    order_items := [], payments := [⟨1, 1, 100, .AUTHORIZED, some "AUTH-1", 0, none⟩],
    idempotency_records := [], audit_logs := [],
    next_customer_id := 1, next_order_id := 2, next_payment_id := 2 }

/-- A `fastapi_legacyshop` store whose only order is already cancelled. -/
def c5wdb : FastapiLegacyshop.DB :=
  { products := [], orders := [⟨1, .CANCELLED⟩], order_items := [],
    payments := [], audit_logs := [] }

/-- The store produced by cancelling the order of `c5db` (payment voided,
status flipped, audit appended). -/
def c5db2ex : LegacyShopApi.DB :=
  { c5db with
    orders := [⟨1, 1, .CANCELLED, none, 100, 0, 100⟩],
    payments := [⟨1, 1, 100, .VOIDED, some "AUTH-1", 0, none⟩],
    audit_logs := [⟨"ORDER", 1, "CANCELLED", "Customer requested cancellation"⟩] }

/-- The response returned by that cancellation. -/
def c5respex : LegacyShopApi.OrderResponse :=
  ⟨1, "", .CANCELLED, 100, 0, 100, none, []⟩

/-- Store for the `fastapi_legacyshop` cancellation runs: a `PAID` order
with an `AUTHORIZED`, externally-referenced payment and one stocked item. -/
def c6db : FastapiLegacyshop.DB :=
  { products := [⟨1, 3⟩], orders := [⟨1, .PAID⟩], order_items := [⟨1, 1, 2⟩],
    payments := [⟨1, 1, .AUTHORIZED, some "EXT-1"⟩], audit_logs := [] }

/-- Store with an `AUTHORIZED` payment for the idempotent-authorize witness. -/
def c10db : LegacyShopApi.DB :=
  { products := [], customers := [], orders := [⟨1, 1, .PAID, none, 100, 0, 100⟩],
    order_items := [], payments := [⟨1, 1, 100, .AUTHORIZED, some "AUTH-1", 0, none⟩],
    idempotency_records := [], audit_logs := [],
    next_customer_id := 1, next_order_id := 2, next_payment_id := 2 }

/-- Catalog whose price produces an unquantized discount (`66.67 × 3 =
200.01`, so the 15% discount is `30.0015`). -/
def c9state : FastapiRewrite.DBState :=
  { products := [⟨1, "Widget A", 6667 / 100, 10⟩], orders := [],
    idempotency_records := [], order_id_counter := 1, order_item_id_counter := 1 }

/-- A three-unit request over `c9state`. -/
def c9request : FastapiRewrite.CreateOrderRequest :=
  { customer_email := "alice@example.com", items := [⟨1, 3⟩] }

/-- Catalog of the `legacyshop-api` round-trip runs: one active product
with an integer price, the customer already on file. -/
def c7wdb : LegacyShopApi.DB :=
  { products := [⟨1, "SKU-A", "Widget", 50, 5, true⟩],
    customers := [⟨1, "alice@example.com", "alice", "Customer"⟩],
    orders := [], order_items := [], payments := [], idempotency_records := [],
    audit_logs := [], next_customer_id := 2, next_order_id := 1,
    next_payment_id := 1 }

/-- A three-unit request over `c7wdb` (`subtotal 150`, `10%` tier). -/
def c7wrequest : LegacyShopApi.OrderCreateRequest :=
  { customerEmail := "alice@example.com", items := [⟨"SKU-A", 3⟩] }

/-- The store after the accepted order of `c7wrequest`: stock decremented,
one `PENDING` order and its snapshot item appended, audit written. -/
def c7wdb6 : LegacyShopApi.DB :=
  { products := [⟨1, "SKU-A", "Widget", 50, 2, true⟩],
    customers := [⟨1, "alice@example.com", "alice", "Customer"⟩],
    orders := [⟨1, 1, .PENDING, none, 150, 15, 135⟩],
    order_items := [⟨1, 1, "SKU-A", "Widget", 3, 50, 150⟩],
    payments := [], idempotency_records := [],
    audit_logs := [⟨"ORDER", 1, "CREATED", "Order created"⟩],
    next_customer_id := 2, next_order_id := 2, next_payment_id := 1 }

/-- The response of that run. -/
def c7wresp : LegacyShopApi.OrderResponse :=
  { id := 1, customerEmail := "alice@example.com", status := .PENDING,
    subtotal := 150, discountAmount := 15, total := 135,
    idempotencyKey := none, items := [⟨1, 1, "SKU-A", "Widget", 3, 50, 150⟩] }

/-! ## Helper lemmas about rounding and cent multiples -/

theorem centMultiple_def (n : ℤ) : CentMultiple ((n : ℚ) / 100) := ⟨n, rfl⟩

theorem quantize2_centMultiple (q : ℚ) : CentMultiple (quantize2 q) :=
  ⟨roundHalfUpCents q, rfl⟩

theorem pyRound2_centMultiple (q : ℚ) : CentMultiple (pyRound2 q) :=
  ⟨roundHalfEvenCents q, rfl⟩

theorem centMultiple_zero : CentMultiple 0 := ⟨0, by norm_num⟩

theorem centMultiple_add {a b : ℚ} (ha : CentMultiple a) (hb : CentMultiple b) :
    CentMultiple (a + b) := by
  obtain ⟨m, rfl⟩ := ha
  obtain ⟨n, rfl⟩ := hb
  exact ⟨m + n, by push_cast; ring⟩

theorem centMultiple_sub {a b : ℚ} (ha : CentMultiple a) (hb : CentMultiple b) :
    CentMultiple (a - b) := by
  obtain ⟨m, rfl⟩ := ha
  obtain ⟨n, rfl⟩ := hb
  exact ⟨m - n, by push_cast; ring⟩

/-- The map `pyRound2` is the identity on whole numbers of cents: `round(x, 2)`
changes nothing when `x` already has at most two decimal places. -/
theorem pyRound2_eq_self {q : ℚ} (h : CentMultiple q) : pyRound2 q = q := by
  obtain ⟨n, rfl⟩ := h
  have h100 : ((n : ℚ) / 100) * 100 = (n : ℚ) := by field_simp
  unfold pyRound2 roundHalfEvenCents
  simp only [h100, Int.floor_intCast, sub_self]
  norm_num

/-- The map `quantize2` is the identity on whole numbers of cents. -/
theorem quantize2_eq_self {q : ℚ} (h : CentMultiple q) : quantize2 q = q := by
  obtain ⟨n, rfl⟩ := h
  have h100 : ((n : ℚ) / 100) * 100 = (n : ℚ) := by field_simp
  unfold quantize2 roundHalfUpCents
  have hfl : ∀ m : ℤ, ⌊(m : ℚ) + 1/2⌋ = m := by
    intro m
    rw [Int.floor_eq_iff]
    exact ⟨by linarith, by linarith⟩
  rcases le_or_lt 0 ((n : ℚ) / 100) with hq | hq
  · rw [if_pos hq, h100, hfl]
  · rw [if_neg (not_le.mpr hq)]
    have hneg : -((n : ℚ) / 100) * 100 = ((-n : ℤ) : ℚ) := by push_cast; field_simp
    rw [hneg, hfl]
    push_cast
    ring

/-- Sums of whole-cent values are whole-cent values. -/
theorem centMultiple_listSum {l : List ℚ} (h : ∀ q ∈ l, CentMultiple q) :
    CentMultiple l.sum := by
  induction l with
  | nil => simpa using centMultiple_zero
  | cons a t ih =>
    rw [List.sum_cons]
    exact centMultiple_add (h a (by simp)) (ih (fun q hq => h q (by simp [hq])))

/-! ## List helper lemmas -/

/-- Mapping a row transformation that does not disturb the search predicate
commutes with `find?`. -/
theorem find?_map_eq {α : Type} (g : α → α) (p : α → Bool)
    (h : ∀ a, p (g a) = p a) (l : List α) :
    (l.map g).find? p = (l.find? p).map g := by
  induction l with
  | nil => rfl
  | cons a t ih =>
    rw [List.map_cons, List.find?_cons, List.find?_cons, h a]
    cases hpa : p a
    · simpa using ih
    · simp

/-- In a list whose entries have pairwise-distinct keys, two members with
equal keys are the same entry. -/
theorem pairwise_key_unique {α : Type} (f : α → ℕ) {l : List α}
    (hp : l.Pairwise (fun a b => f a ≠ f b)) {a b : α}
    (ha : a ∈ l) (hb : b ∈ l) (hf : f a = f b) : a = b := by
  induction l with
  | nil => cases ha
  | cons x t ih =>
    rcases List.pairwise_cons.mp hp with ⟨hx, ht⟩
    rcases List.mem_cons.mp ha with rfl | ha2
    · rcases List.mem_cons.mp hb with rfl | hb2
      · rfl
      · exact absurd hf (hx _ hb2)
    · rcases List.mem_cons.mp hb with rfl | hb2
      · exact absurd hf.symm (hx _ ha2)
      · exact ih ht ha2 hb2

/-- Every branch of the legacyshop discount engine returns a quantized
(whole-cent) amount. -/
theorem calculate_discount_centMultiple (S : ℚ) :
    CentMultiple (LegacyShopApi.calculate_discount S) := by
  unfold LegacyShopApi.calculate_discount
  split_ifs <;> exact ⟨roundHalfUpCents _, rfl⟩

/-! ## Claim C4 — tiered discount computation -/

/-- C4 counterexample: the `python-fastapi-rewrite` variant's
`DiscountService.calculate_discount` returns 0 at subtotal 200.00, while
the claimed tier table demands `round2(200 × 15%) = 30.00`. -/
theorem c4_counterexample :
    PyRewrite.calculate_discount 200 = 0 ∧
    quantize2 ((200 : ℚ) * specDiscountRate 200) = 30 ∧ (0 : ℚ) ≠ 30 := by
  refine ⟨?_, ?_, by norm_num⟩
  · rw [PyRewrite.calculate_discount, PyRewrite.DISCOUNT_TIERS]
    norm_num [List.find?]
  · have h : (200 : ℚ) * specDiscountRate 200 = 30 := by norm_num [specDiscountRate]
    rw [h, quantize2_eq_self ⟨3000, by norm_num⟩]

/-- C4 (amended): the `legacyshop-api` `DiscountService.calculate_discount`
does satisfy the claim — for every subtotal `S` it equals
`round2(S × rate)` with the rate picked by the highest inclusive tier
(15% from 200.00, 10% from 100.00, 5% from 50.00, else 0), quantized
half-up, pure and deterministic — but the `python-fastapi-rewrite` variant
instead uses tiers of 10% from 1000.00 and 5% from 500.00 and returns the
product unquantized. -/
theorem c4_amended (S : ℚ) :
    LegacyShopApi.calculate_discount S = quantize2 (S * specDiscountRate S) ∧
    PyRewrite.calculate_discount S =
      (if S ≥ 1000 then S * (10 / 100) else if S ≥ 500 then S * (5 / 100) else 0) := by
  constructor
  · unfold LegacyShopApi.calculate_discount specDiscountRate
      LegacyShopApi.tier3_threshold LegacyShopApi.tier2_threshold
      LegacyShopApi.tier1_threshold LegacyShopApi.tier3_discount
      LegacyShopApi.tier2_discount LegacyShopApi.tier1_discount
    split_ifs <;> simp
  · unfold PyRewrite.calculate_discount PyRewrite.DISCOUNT_TIERS
    by_cases h1 : S ≥ 1000
    · rw [List.find?_cons_of_pos _ (by simpa using h1)]
      simp [h1]
    · rw [List.find?_cons_of_neg _ (by simpa using h1)]
      by_cases h2 : S ≥ 500
      · rw [List.find?_cons_of_pos _ (by simpa using h2)]
        simp [h1, h2]
      · rw [List.find?_cons_of_neg _ (by simpa using h2)]
        simp [h1, h2, List.find?]

/-! ## Claim C10 — idempotent re-authorization -/

/-- An attempt that already returns a payment needs no retry: the driver
passes its result through. -/
theorem attempt_loop_of_ok {db db2 : LegacyShopApi.DB} {order_id : ℕ}
    {gw rest : List LegacyShopApi.GatewayOutcome} {p : LegacyShopApi.Payment} (n : ℕ)
    (h : LegacyShopApi.authorize_attempt db order_id gw = (db2, .ok p, rest)) :
    LegacyShopApi.attempt_loop order_id db gw (n + 1) = (db2, .ok p, rest) := by
  simp only [LegacyShopApi.attempt_loop, h]

/-- C10: when the order's payment row is already `AUTHORIZED`, a further
`authorize_payment` call returns that payment unchanged, mutates no state
and consumes no gateway trace (no external call). -/
theorem c10_authorize_idempotent (db : LegacyShopApi.DB) (order_id : ℕ)
    (gateway : List LegacyShopApi.GatewayOutcome)
    (order : LegacyShopApi.Order) (payment : LegacyShopApi.Payment)
    (horder : db.findOrderById order_id = some order)
    (hpay : db.findPaymentByOrderId order.id = some payment)
    (hst : payment.status = LegacyShopApi.PaymentStatus.AUTHORIZED) :
    LegacyShopApi.authorize_payment db order_id gateway = (db, .ok payment, gateway) := by
  have hatt : LegacyShopApi.authorize_attempt db order_id gateway =
      (db, .ok payment, gateway) := by
    simp only [LegacyShopApi.authorize_attempt, horder, hpay, hst, beq_self_eq_true,
      if_true]
  unfold LegacyShopApi.authorize_payment
  exact attempt_loop_of_ok 1 hatt

/-- Witness for C10 at a concrete store. -/
theorem c10_authorize_idempotent_witness :
    LegacyShopApi.authorize_payment c10db 1 [] =
      (c10db, .ok ⟨1, 1, 100, .AUTHORIZED, some "AUTH-1", 0, none⟩, []) :=
  c10_authorize_idempotent c10db 1 [] ⟨1, 1, .PAID, none, 100, 0, 100⟩
    ⟨1, 1, 100, .AUTHORIZED, some "AUTH-1", 0, none⟩ rfl rfl rfl

/-! ## Claim C2 — retry policy of payment authorization -/

/-- C2 (code bug): in `legacyshop-api`, a 4xx gateway response IS retried.
With a trace of two HTTP 402 responses, `authorize_payment` consumes both
trace entries (two gateway calls) and records two failed payment rows, even
though the classifier marked the first failure non-retryable — `tenacity`
retries on the exception type `PaymentException` and ignores the
`retryable` flag.  The claim requires a 4xx to fail after exactly one
attempt. -/
theorem c2_retries_on_4xx :
    LegacyShopApi.authorize_payment c2db 1 [.httpStatus 402, .httpStatus 402] =
      ({ c2db with
           payments :=
             [⟨1, 1, 100, .FAILED, none, 1, some "Payment authorization failed"⟩,
              ⟨2, 1, 100, .FAILED, none, 1, some "Payment authorization failed"⟩],
           next_payment_id := 3 },
       .paymentError ⟨"Payment authorization failed", false⟩, []) := by
  rfl

/-! ## Claim C3 — rollback of partial stock decrements -/

/-- C3 (code bug): in `fastapi-rewrite`, a create that fails on its second
line item (insufficient stock) returns an error but keeps the first line
item's stock decrement: product 1's stock drops from 5 to 3 and stays
there, because the global dict store has no transaction to roll back. -/
theorem c3_partial_decrement :
    (FastapiRewrite.create_order c3state c3request "key-c3").2 =
        .error { status := 409, title := "Insufficient Stock" } ∧
    (FastapiRewrite.create_order c3state c3request "key-c3").1.products.map
        (fun p => p.stock) = [3, 0] ∧
    c3state.products.map (fun p => p.stock) = [5, 0] := by
  refine ⟨rfl, rfl, rfl⟩

/-! ## Claim C1 — idempotency-key deduplication -/

/-- C1 counterexample: in `fastapi-rewrite`, repeating the byte-identical
request under the same idempotency key does not replay the stored
response — the second call fails with 409 Duplicate Request, although the
canonical hash of an identical body is trivially identical. -/
theorem c1_counterexample :
    (∃ order, (FastapiRewrite.create_order c1state c1request "key-c1").2 =
      .ok order) ∧
    (FastapiRewrite.create_order
        (FastapiRewrite.create_order c1state c1request "key-c1").1
        c1request "key-c1").2 =
      .error { status := 409, title := "Duplicate Request" } :=
  ⟨⟨_, rfl⟩, rfl⟩

/-- C1 (amended): no variant compares a canonical request hash.  In
`legacyshop-api`, an existing order under the key is replayed verbatim
regardless of the current request body (no `DuplicateResourceError` is ever
raised and no state is mutated); in `fastapi-rewrite`, any reuse of the key
is rejected with 409, state unchanged, even for an identical body. -/
theorem c1_amended :
    (∀ (db : LegacyShopApi.DB) (request : LegacyShopApi.OrderCreateRequest)
        (key : String) (order : LegacyShopApi.Order),
        db.findOrderByKey key = some order →
        LegacyShopApi.create_order db request (some key) =
          .ok (db, LegacyShopApi.order_to_response db order)) ∧
    (∀ (s : FastapiRewrite.DBState) (request : FastapiRewrite.CreateOrderRequest)
        (key : String) (r : FastapiRewrite.IdempotencyRecord),
        s.idempotency_records.find? (fun rec => rec.idempotency_key == key) = some r →
        FastapiRewrite.create_order s request key =
          (s, .error { status := 409, title := "Duplicate Request" })) := by
  constructor
  · intro db request key order h
    unfold LegacyShopApi.create_order
    simp only [Option.some_bind, h]
  · intro s request key r h
    unfold FastapiRewrite.create_order
    simp only [h]

/-- Witness for C1 (amended): a replay with a different body in
`legacyshop-api`, and a 409 on key reuse in `fastapi-rewrite`. -/
theorem c1_amended_witness :
    LegacyShopApi.create_order c1wdb c1wrequest (some "K") =
      .ok (c1wdb, LegacyShopApi.order_to_response c1wdb
        ⟨1, 1, .PENDING, some "K", 50, 0, 50⟩) ∧
    FastapiRewrite.create_order c1wstate c1wrequest2 "K" =
      (c1wstate, .error { status := 409, title := "Duplicate Request" }) :=
  ⟨c1_amended.1 c1wdb c1wrequest "K" ⟨1, 1, .PENDING, some "K", 50, 0, 50⟩ rfl,
   c1_amended.2 c1wstate c1wrequest2 "K" ⟨"K", 1⟩ rfl⟩

/-! ## Claim C6 — cancellation must not outlive a failed void -/

/-- C6 counterexample: in `fastapi_legacyshop`, cancelling a `PAID` order
whose `AUTHORIZED` payment fails to void (HTTP 500 from the gateway)
nevertheless succeeds: the final state has the order `CANCELLED` while the
payment is still `AUTHORIZED` and un-voided. -/
theorem c6_counterexample :
    FastapiLegacyshop.cancel_order c6db 1 (.http 500) =
      .ok { products := [⟨1, 5⟩], orders := [⟨1, .CANCELLED⟩],
            order_items := [⟨1, 1, 2⟩],
            payments := [⟨1, 1, .AUTHORIZED, some "EXT-1"⟩],
            audit_logs := ["STOCK_INCREMENTED", "ORDER_CANCELLED"] } := by
  rfl

/-- A fold step that leaves a projection of the state unchanged leaves it
unchanged after the whole fold. -/
theorem foldl_preserves {α β γ : Type} (f : β → α → β) (g : β → γ)
    (h : ∀ b a, g (f b a) = g b) (l : List α) :
    ∀ b : β, g (l.foldl f b) = g b := by
  induction l with
  | nil => intro b; rfl
  | cons a t ih =>
    intro b
    rw [List.foldl_cons, ih (f b a), h b a]

/-- The `fastapi_legacyshop` restock step touches only products and audit
logs: orders are unchanged. -/
theorem fls_restock_orders (acc : FastapiLegacyshop.DB)
    (it : FastapiLegacyshop.OrderItem) :
    (FastapiLegacyshop.restock_step acc it).orders = acc.orders := by
  unfold FastapiLegacyshop.restock_step
  cases acc.products.find? (fun p => p.id == it.product_id) <;> rfl

/-- The `fastapi_legacyshop` restock step leaves payments unchanged. -/
theorem fls_restock_payments (acc : FastapiLegacyshop.DB)
    (it : FastapiLegacyshop.OrderItem) :
    (FastapiLegacyshop.restock_step acc it).payments = acc.payments := by
  unfold FastapiLegacyshop.restock_step
  cases acc.products.find? (fun p => p.id == it.product_id) <;> rfl


/-- C6 (amended): in `fastapi_legacyshop` a failed void does not fail the
cancellation.  Cancelling a cancellable order with an `AUTHORIZED`,
externally-referenced payment always succeeds and marks the order
`CANCELLED`; the payment becomes `VOIDED` only when the void call returned
HTTP 200, and stays `AUTHORIZED` (un-voided) on any other status or on an
exception, which is merely audit-logged. -/
theorem c6_amended (db : FastapiLegacyshop.DB) (order_id : ℕ)
    (g : FastapiLegacyshop.VoidOutcome) (order : FastapiLegacyshop.OrderEntity)
    (payment : FastapiLegacyshop.Payment) (ext : String)
    (horder : db.orders.find? (fun o => o.id == order_id) = some order)
    (hcanc : FastapiLegacyshop.can_be_cancelled order = true)
    (hpay : db.payments.find? (fun p => p.order_id == order.id) = some payment)
    (hst : payment.status = FastapiLegacyshop.PaymentStatus.AUTHORIZED)
    (hext : payment.external_payment_id = some ext) :
    ∃ db2, FastapiLegacyshop.cancel_order db order_id g = .ok db2 ∧
      (db2.orders.find? (fun o => o.id == order_id)).map (fun o => o.status) =
        some FastapiLegacyshop.OrderStatus.CANCELLED ∧
      (db2.payments.find? (fun p => p.order_id == order.id)).map (fun p => p.status) =
        some (if g = FastapiLegacyshop.VoidOutcome.http 200
              then FastapiLegacyshop.PaymentStatus.VOIDED
              else FastapiLegacyshop.PaymentStatus.AUTHORIZED) := by
  have hid : order.id = order_id := by simpa using List.find?_some horder
  subst hid
  have horders1 := foldl_preserves FastapiLegacyshop.restock_step
    (fun d => d.orders) fls_restock_orders
    (db.order_items.filter (fun it => it.order_id == order.id)) db
  have hpays1 := foldl_preserves FastapiLegacyshop.restock_step
    (fun d => d.payments) fls_restock_payments
    (db.order_items.filter (fun it => it.order_id == order.id)) db
  simp only at horders1 hpays1
  have hordfind :
      ∀ dbv : FastapiLegacyshop.DB, dbv.orders = db.orders →
        (((dbv.updateOrder order.id
            (fun o => { o with status := FastapiLegacyshop.OrderStatus.CANCELLED })).orders.find?
          (fun o => o.id == order.id)).map (fun o => o.status)) =
          some FastapiLegacyshop.OrderStatus.CANCELLED := by
    intro dbv hdbv
    rw [FastapiLegacyshop.DB.updateOrder]
    show ((dbv.orders.map _).find? _).map _ = _
    rw [hdbv, find?_map_eq _ _ (fun a => by
      by_cases h : (a.id == order.id) = true <;> simp [h]), horder]
    simp
  have hpayfind :
      ∀ dbv : FastapiLegacyshop.DB, dbv.payments = db.payments →
        ((dbv.payments.find? (fun p => p.order_id == order.id)).map (fun p => p.status)) =
          some payment.status := by
    intro dbv hdbv
    rw [hdbv, hpay]
    rfl
  have hvoidfind :
      ∀ dbv : FastapiLegacyshop.DB, dbv.payments = db.payments →
        (((dbv.updatePayment payment.id
            (fun p => { p with status := FastapiLegacyshop.PaymentStatus.VOIDED })).payments.find?
          (fun p => p.order_id == order.id)).map (fun p => p.status)) =
          some FastapiLegacyshop.PaymentStatus.VOIDED := by
    intro dbv hdbv
    rw [FastapiLegacyshop.DB.updatePayment]
    show ((dbv.payments.map _).find? _).map _ = _
    rw [hdbv, find?_map_eq _ _ (fun a => by
      by_cases h : (a.id == payment.id) = true <;> simp [h]), hpay]
    simp
  rcases g with code | _
  · by_cases hcode : (code == 200) = true
    · cases hrun : FastapiLegacyshop.cancel_order db order.id
          (FastapiLegacyshop.VoidOutcome.http code) with
      | error e =>
        exfalso
        simp only [FastapiLegacyshop.cancel_order, horder, hcanc, Bool.not_true,
          hpays1, hpay, hst, FastapiLegacyshop.void_payment, hext, hcode,
          Option.isNone_some, beq_self_eq_true, if_true] at hrun
        simp at hrun
      | ok db2 =>
        refine ⟨db2, rfl, ?_, ?_⟩
        all_goals
          simp only [FastapiLegacyshop.cancel_order, horder, hcanc, Bool.not_true,
            hpays1, hpay, hst, FastapiLegacyshop.void_payment, hext, hcode,
            Option.isNone_some, beq_self_eq_true, if_true, Bool.false_eq_true,
            if_false, Except.ok.injEq] at hrun
          subst hrun
        · exact hordfind _ (by simp [FastapiLegacyshop.DB.updatePayment, horders1])
        · have h200 : code = 200 := by simpa using hcode
          subst h200
          simp only [if_pos rfl]
          exact hvoidfind _ hpays1
    · cases hrun : FastapiLegacyshop.cancel_order db order.id
          (FastapiLegacyshop.VoidOutcome.http code) with
      | error e =>
        exfalso
        simp only [FastapiLegacyshop.cancel_order, horder, hcanc, Bool.not_true,
          hpays1, hpay, hst, FastapiLegacyshop.void_payment, hext, hcode,
          Option.isNone_some, beq_self_eq_true, if_true] at hrun
        simp at hrun
      | ok db2 =>
        refine ⟨db2, rfl, ?_, ?_⟩
        all_goals
          simp only [FastapiLegacyshop.cancel_order, horder, hcanc, Bool.not_true,
            hpays1, hpay, hst, FastapiLegacyshop.void_payment, hext, hcode,
            Option.isNone_some, beq_self_eq_true, if_true, Bool.false_eq_true,
            if_false, Except.ok.injEq] at hrun
          subst hrun
        · exact hordfind _ horders1
        · have hne : FastapiLegacyshop.VoidOutcome.http code ≠
              FastapiLegacyshop.VoidOutcome.http 200 := by
            simp only [ne_eq, FastapiLegacyshop.VoidOutcome.http.injEq]
            simpa using hcode
          rw [if_neg hne]
          have hp := hpayfind _ hpays1
          rw [hst] at hp
          exact hp
  · cases hrun : FastapiLegacyshop.cancel_order db order.id
        FastapiLegacyshop.VoidOutcome.exception with
    | error e =>
      exfalso
      simp only [FastapiLegacyshop.cancel_order, horder, hcanc, Bool.not_true,
        hpays1, hpay, hst, FastapiLegacyshop.void_payment, hext,
        Option.isNone_some, beq_self_eq_true, if_true] at hrun
      simp at hrun
    | ok db2 =>
      refine ⟨db2, rfl, ?_, ?_⟩
      all_goals
        simp only [FastapiLegacyshop.cancel_order, horder, hcanc, Bool.not_true,
          hpays1, hpay, hst, FastapiLegacyshop.void_payment, hext,
          Option.isNone_some, beq_self_eq_true, if_true, Bool.false_eq_true,
          if_false, Except.ok.injEq] at hrun
        subst hrun
      · exact hordfind _ horders1
      · have hne : FastapiLegacyshop.VoidOutcome.exception ≠
            FastapiLegacyshop.VoidOutcome.http 200 := by simp
        rw [if_neg hne]
        have hp := hpayfind db rfl
        rw [hst] at hp
        exact hp

/-- Witness for C6 (amended): concrete cancellation with a successful void
(HTTP 200) marks the payment `VOIDED` and the order `CANCELLED`. -/
theorem c6_amended_witness :
    ∃ db2, FastapiLegacyshop.cancel_order c6db 1 (.http 200) = .ok db2 ∧
      (db2.orders.find? (fun o => o.id == 1)).map (fun o => o.status) =
        some FastapiLegacyshop.OrderStatus.CANCELLED ∧
      (db2.payments.find? (fun p => p.order_id == 1)).map (fun p => p.status) =
        some FastapiLegacyshop.PaymentStatus.VOIDED :=
  c6_amended c6db 1 (.http 200) ⟨1, .PAID⟩ ⟨1, 1, .AUTHORIZED, some "EXT-1"⟩
    "EXT-1" rfl rfl rfl rfl rfl

/-! ## Claim C5 — order status state machine -/

/-- C5 counterexample: in `legacyshop-api`, authorize-payment on an
already-`PAID` order is not rejected — the service returns the existing
authorized payment as a success. -/
theorem c5_counterexample :
    LegacyShopApi.authorize_payment c5db 1 [] =
      (c5db, .ok ⟨1, 1, 100, .AUTHORIZED, some "AUTH-1", 0, none⟩, []) ∧
    (c5db.findOrderById 1).map (fun o => o.status) =
      some LegacyShopApi.OrderStatus.PAID :=
  ⟨rfl, rfl⟩

/-- Reflexivity: keeping a status is a forward move. -/
theorem statusForward_refl (s : LegacyShopApi.OrderStatus) : statusForward s s :=
  Or.inl rfl

/-- Forward moves compose. -/
theorem statusForward_trans {a b c : LegacyShopApi.OrderStatus}
    (h1 : statusForward a b) (h2 : statusForward b c) : statusForward a c := by
  unfold statusForward at h1 h2 ⊢
  rcases h1 with rfl | ⟨rfl, rfl⟩ | ⟨ha, rfl⟩
  · exact h2
  · rcases h2 with rfl | ⟨h2a, _⟩ | ⟨_, rfl⟩
    · exact Or.inr (Or.inl ⟨rfl, rfl⟩)
    · cases h2a
    · exact Or.inr (Or.inr ⟨Or.inl rfl, rfl⟩)
  · rcases h2 with rfl | ⟨h2a, _⟩ | ⟨h2a, rfl⟩
    · exact Or.inr (Or.inr ⟨ha, rfl⟩)
    · cases h2a
    · rcases h2a with h | h <;> cases h

/-- Row evolution is reflexive. -/
theorem orderEvolves_refl (o : LegacyShopApi.Order) : orderEvolves o o :=
  ⟨rfl, rfl, rfl, rfl, statusForward_refl o.status⟩

/-- Row evolution composes. -/
theorem orderEvolves_trans {a b c : LegacyShopApi.Order}
    (h1 : orderEvolves a b) (h2 : orderEvolves b c) : orderEvolves a c :=
  ⟨h1.1.trans h2.1, h2.2.1.trans h1.2.1, h2.2.2.1.trans h1.2.2.1,
   h2.2.2.2.1.trans h1.2.2.2.1, statusForward_trans h1.2.2.2.2 h2.2.2.2.2⟩

/-- Unchanged order tables evolve trivially. -/
theorem evolves_refl_of_eq (db : LegacyShopApi.DB) (l : List LegacyShopApi.Order)
    (h : l = db.orders) : ∀ o2 ∈ l, ∃ o ∈ db.orders, orderEvolves o o2 := by
  subst h
  intro o2 h2
  exact ⟨o2, h2, orderEvolves_refl o2⟩

/-- The legacyshop stock-restoration step never touches the order table. -/
theorem lsa_restore_orders (acc : LegacyShopApi.DB) (it : LegacyShopApi.OrderItem) :
    (LegacyShopApi.restore_stock_step acc it).orders = acc.orders := by
  unfold LegacyShopApi.restore_stock_step
  cases acc.findProductById it.product_id <;> rfl

/-- The legacyshop stock-restoration step never touches payments. -/
theorem lsa_restore_payments (acc : LegacyShopApi.DB) (it : LegacyShopApi.OrderItem) :
    (LegacyShopApi.restore_stock_step acc it).payments = acc.payments := by
  unfold LegacyShopApi.restore_stock_step
  cases acc.findProductById it.product_id <;> rfl

/-- A successful void changes only the payment table. -/
theorem void_payment_ok_spec (db dbv : LegacyShopApi.DB) (pid : ℕ)
    (h : LegacyShopApi.void_payment db pid = .ok dbv) :
    dbv.orders = db.orders ∧ dbv.products = db.products ∧
      dbv.order_items = db.order_items := by
  unfold LegacyShopApi.void_payment at h
  cases hf : db.findPaymentById pid with
  | none => rw [hf] at h; cases h
  | some payment =>
    simp only [hf] at h
    cases hv : payment.void with
    | error e => rw [hv] at h; cases h
    | ok p2 =>
      rw [hv] at h
      simp only [Except.ok.injEq] at h
      subst h
      exact ⟨rfl, rfl, rfl⟩

/-- A successful conditional void changes only the payment table. -/
theorem void_if_authorized_ok_spec (db dbv : LegacyShopApi.DB) (oid : ℕ)
    (h : LegacyShopApi.void_if_authorized db oid = .ok dbv) :
    dbv.orders = db.orders ∧ dbv.products = db.products ∧
      dbv.order_items = db.order_items := by
  unfold LegacyShopApi.void_if_authorized at h
  cases hf : db.findPaymentByOrderId oid with
  | none =>
    simp only [hf, Except.ok.injEq] at h
    subst h
    exact ⟨rfl, rfl, rfl⟩
  | some payment =>
    simp only [hf] at h
    by_cases ha : (payment.status == LegacyShopApi.PaymentStatus.AUTHORIZED) = true
    · rw [if_pos ha] at h
      exact void_payment_ok_spec db dbv payment.id h
    · rw [if_neg ha] at h
      simp only [Except.ok.injEq] at h
      subst h
      exact ⟨rfl, rfl, rfl⟩

/-- A cancellable order has status `PENDING` or `PAID`. -/
theorem can_be_cancelled_iff (o : LegacyShopApi.Order) :
    o.can_be_cancelled = true ↔
      (o.status = LegacyShopApi.OrderStatus.PENDING ∨
        o.status = LegacyShopApi.OrderStatus.PAID) := by
  unfold LegacyShopApi.Order.can_be_cancelled
  cases o.status <;> simp

/-- Every order row surviving a successful cancellation descends from a row
of the pre-state with the same id and money and a forward status move. -/
theorem cancel_order_evolves (db db2 : LegacyShopApi.DB) (oid : ℕ)
    (resp : LegacyShopApi.OrderResponse)
    (h : LegacyShopApi.cancel_order db oid = .ok (db2, resp)) :
    ∀ o2 ∈ db2.orders, ∃ o ∈ db.orders, orderEvolves o o2 := by
  unfold LegacyShopApi.cancel_order at h
  cases hfind : db.findOrderById oid with
  | none => rw [hfind] at h; cases h
  | some order =>
    rw [hfind] at h
    by_cases hc : order.can_be_cancelled = true
    · simp only [hc, Bool.not_true, Bool.false_eq_true, if_false,
        LegacyShopApi.Order.cancel, if_true] at h
      cases hv : LegacyShopApi.void_if_authorized
          ((db.itemsOfOrder order.id).foldl LegacyShopApi.restore_stock_step db)
          order.id with
      | error e => rw [hv] at h; cases h
      | ok db2v =>
        rw [hv] at h
        simp only [Except.ok.injEq, Prod.mk.injEq] at h
        obtain ⟨hdb2, -⟩ := h
        subst hdb2
        intro o2 ho2
        have hfold := foldl_preserves LegacyShopApi.restore_stock_step
          (fun d => d.orders) lsa_restore_orders (db.itemsOfOrder order.id) db
        simp only at hfold
        have hvo := (void_if_authorized_ok_spec _ _ _ hv).1
        simp only [LegacyShopApi.DB.updateOrder] at ho2
        rw [hvo, hfold] at ho2
        rcases List.mem_map.mp ho2 with ⟨o, hoIn, hoEq⟩
        by_cases hid : (o.id == order.id) = true
        · rw [if_pos hid] at hoEq
          have hmem : order ∈ db.orders := by
            have hfind2 : db.orders.find? (fun o => o.id == oid) = some order := hfind
            exact List.mem_of_find?_eq_some hfind2
          refine ⟨order, hmem, ?_⟩
          subst hoEq
          refine ⟨rfl, rfl, rfl, rfl, ?_⟩
          exact Or.inr (Or.inr ⟨(can_be_cancelled_iff order).mp hc, rfl⟩)
        · rw [if_neg hid] at hoEq
          subst hoEq
          exact ⟨o, hoIn, orderEvolves_refl o⟩
    · simp only [hc, Bool.not_false, Bool.not_true, if_true] at h
      cases h

/-- Every order row after one gateway call and classification descends from
a pre-state row: only a `PENDING` order is moved to `PAID`, on success. -/
theorem call_and_classify_evolves (db : LegacyShopApi.DB) (order : LegacyShopApi.Order)
    (payment : LegacyShopApi.Payment) (gw : List LegacyShopApi.GatewayOutcome)
    (hmem : order ∈ db.orders) :
    ∀ o2 ∈ (LegacyShopApi.call_and_classify db order payment gw).1.orders,
      ∃ o ∈ db.orders, orderEvolves o o2 := by
  unfold LegacyShopApi.call_and_classify
  rcases gw with _ | ⟨g, gs⟩
  · exact evolves_refl_of_eq db _ rfl
  · cases g with
    | success auth =>
      cases hm : order.mark_as_paid with
      | ok order2 =>
        simp only [hm]
        unfold LegacyShopApi.Order.mark_as_paid at hm
        by_cases hp : (order.status == LegacyShopApi.OrderStatus.PENDING) = true
        · rw [if_pos hp] at hm
          simp only [Except.ok.injEq] at hm
          subst hm
          intro o2 ho2
          simp only [LegacyShopApi.DB.updateOrder] at ho2
          rcases List.mem_map.mp ho2 with ⟨o, hoIn, hoEq⟩
          by_cases hid : (o.id == order.id) = true
          · rw [if_pos hid] at hoEq
            subst hoEq
            refine ⟨order, hmem, rfl, rfl, rfl, rfl, ?_⟩
            exact Or.inr (Or.inl ⟨by simpa using hp, rfl⟩)
          · rw [if_neg hid] at hoEq
            subst hoEq
            exact ⟨o, hoIn, orderEvolves_refl o⟩
        · rw [if_neg hp] at hm
          cases hm
      | error msg =>
        simp only [hm]
        exact evolves_refl_of_eq db _ rfl
    | httpStatus code =>
      dsimp only
      split_ifs <;> exact evolves_refl_of_eq db _ rfl
    | networkError =>
      exact evolves_refl_of_eq db _ rfl

/-- Every order row after one `authorize_payment` body execution descends
from a pre-state row by a forward move. -/
theorem authorize_attempt_evolves (db : LegacyShopApi.DB) (oid : ℕ)
    (gw : List LegacyShopApi.GatewayOutcome) :
    ∀ o2 ∈ (LegacyShopApi.authorize_attempt db oid gw).1.orders,
      ∃ o ∈ db.orders, orderEvolves o o2 := by
  unfold LegacyShopApi.authorize_attempt
  cases hfind : db.findOrderById oid with
  | none => exact evolves_refl_of_eq db _ rfl
  | some order =>
    simp only [hfind]
    have hmem : order ∈ db.orders := List.mem_of_find?_eq_some hfind
    cases hp : db.findPaymentByOrderId order.id with
    | some ep =>
      simp only [hp]
      by_cases ha : (ep.status == LegacyShopApi.PaymentStatus.AUTHORIZED) = true
      · rw [if_pos ha]
        exact evolves_refl_of_eq db _ rfl
      · rw [if_neg ha]
        by_cases hpd : (ep.status == LegacyShopApi.PaymentStatus.PENDING) = true
        · rw [if_pos hpd]
          exact call_and_classify_evolves db order ep gw hmem
        · rw [if_neg hpd]
          exact call_and_classify_evolves _ order _ gw hmem
    | none =>
      simp only [hp]
      exact call_and_classify_evolves _ order _ gw hmem

/-- Every order row after the bounded retry loop descends from a pre-state
row by a forward move. -/
theorem attempt_loop_evolves (oid : ℕ) :
    ∀ (n : ℕ) (db : LegacyShopApi.DB) (gw : List LegacyShopApi.GatewayOutcome),
      ∀ o2 ∈ (LegacyShopApi.attempt_loop oid db gw n).1.orders,
        ∃ o ∈ db.orders, orderEvolves o o2 := by
  intro n
  induction n with
  | zero =>
    intro db gw
    exact evolves_refl_of_eq db _ rfl
  | succ n ih =>
    intro db gw
    have hatt_ev := authorize_attempt_evolves db oid gw
    rcases hatt : LegacyShopApi.authorize_attempt db oid gw with ⟨db1, res, rest⟩
    rw [hatt] at hatt_ev
    simp only [LegacyShopApi.attempt_loop, hatt]
    cases res with
    | ok p => exact hatt_ev
    | notFound m => exact hatt_ev
    | paymentError e =>
      by_cases hn : n = 0
      · simp only [hn, if_true]
        exact hatt_ev
      · simp only [hn, if_false]
        intro o2 ho2
        rcases ih db1 rest o2 ho2 with ⟨o1, ho1, hev1⟩
        rcases hatt_ev o1 ho1 with ⟨o, ho, hev0⟩
        exact ⟨o, ho, orderEvolves_trans hev0 hev1⟩

/-- Every order row after a full (retried) authorization descends from a
pre-state row by a forward move. -/
theorem authorize_payment_evolves (db : LegacyShopApi.DB) (oid : ℕ)
    (gw : List LegacyShopApi.GatewayOutcome) :
    ∀ o2 ∈ (LegacyShopApi.authorize_payment db oid gw).1.orders,
      ∃ o ∈ db.orders, orderEvolves o o2 :=
  attempt_loop_evolves oid LegacyShopApi.payment_max_attempts db gw

/-- C5 (amended): the status machine holds with one exception — in
`legacyshop-api` authorize-payment is not rejected on a non-`PENDING`
order; an already-`PAID` order's authorize returns the existing authorized
payment (see the counterexample).  What does hold: (1) the
`fastapi_legacyshop` variant rejects authorize whenever the status is not
`PENDING`; (2) in `legacyshop-api` a gateway success transitions a
`PENDING` order to `PAID`; (3) cancel is rejected exactly on `CANCELLED`
and `SHIPPED` and succeeds on `PENDING` and `PAID`; (4,5) cancellation and
authorization move every order's status only forward, so `CANCELLED` and
`SHIPPED` are terminal. -/
theorem c5_amended :
    (∀ (db : FastapiLegacyshop.DB) (oid : ℕ) (order : FastapiLegacyshop.OrderEntity),
        db.orders.find? (fun o => o.id == oid) = some order →
        order.status ≠ FastapiLegacyshop.OrderStatus.PENDING →
        FastapiLegacyshop.authorize_payment db oid =
          .error "Cannot authorize payment for order in status") ∧
    (∀ (db : LegacyShopApi.DB) (oid : ℕ) (auth : String)
        (gw : List LegacyShopApi.GatewayOutcome) (order : LegacyShopApi.Order),
        db.findOrderById oid = some order →
        order.status = LegacyShopApi.OrderStatus.PENDING →
        db.findPaymentByOrderId order.id = none →
        (((LegacyShopApi.authorize_payment db oid
            (LegacyShopApi.GatewayOutcome.success auth :: gw)).1.findOrderById oid).map
          (fun o => o.status)) = some LegacyShopApi.OrderStatus.PAID) ∧
    (∀ (db : LegacyShopApi.DB) (oid : ℕ) (order : LegacyShopApi.Order),
        db.findOrderById oid = some order →
        db.payments.Pairwise (fun a b => a.id ≠ b.id) →
        (((order.status = LegacyShopApi.OrderStatus.CANCELLED ∨
            order.status = LegacyShopApi.OrderStatus.SHIPPED) →
          ∃ e, LegacyShopApi.cancel_order db oid = .error e) ∧
        ((order.status = LegacyShopApi.OrderStatus.PENDING ∨
            order.status = LegacyShopApi.OrderStatus.PAID) →
          ∃ db2 resp, LegacyShopApi.cancel_order db oid = .ok (db2, resp)))) ∧
    (∀ (db db2 : LegacyShopApi.DB) (oid : ℕ) (resp : LegacyShopApi.OrderResponse),
        LegacyShopApi.cancel_order db oid = .ok (db2, resp) →
        ∀ o2 ∈ db2.orders, ∃ o ∈ db.orders, orderEvolves o o2) ∧
    (∀ (db : LegacyShopApi.DB) (oid : ℕ) (gw : List LegacyShopApi.GatewayOutcome),
        ∀ o2 ∈ (LegacyShopApi.authorize_payment db oid gw).1.orders,
          ∃ o ∈ db.orders, orderEvolves o o2) := by
  refine ⟨?_, ?_, ?_, ?_, ?_⟩
  · -- (1) fastapi_legacyshop rejects authorize on non-PENDING
    intro db oid order horder hne
    have hb : (order.status != FastapiLegacyshop.OrderStatus.PENDING) = true := by
      simpa using hne
    simp only [FastapiLegacyshop.authorize_payment, horder, hb, if_true]
  · -- (2) gateway success on a PENDING order yields PAID
    intro db oid auth gw order horder hpend hnopay
    have hid : order.id = oid := by simpa using List.find?_some horder
    subst hid
    unfold LegacyShopApi.authorize_payment LegacyShopApi.payment_max_attempts
    simp only [LegacyShopApi.attempt_loop, LegacyShopApi.authorize_attempt, horder,
      hnopay, LegacyShopApi.call_and_classify, LegacyShopApi.Order.mark_as_paid, hpend,
      LegacyShopApi.DB.updatePayment, beq_self_eq_true, if_true]
    simp only [LegacyShopApi.DB.findOrderById, LegacyShopApi.DB.updateOrder]
    rw [find?_map_eq _ _ (fun a => by
      by_cases h : (a.id == order.id) = true <;> simp [h])]
    have horder2 : db.orders.find? (fun o => o.id == order.id) = some order := horder
    rw [horder2]
    simp
  · -- (3) cancel accepted exactly on PENDING/PAID
    intro db oid order horder hpair
    have hfoldpay := foldl_preserves LegacyShopApi.restore_stock_step
      (fun d => d.payments) lsa_restore_payments (db.itemsOfOrder order.id) db
    simp only at hfoldpay
    constructor
    · intro hstat
      have hcb : order.can_be_cancelled = false := by
        rcases hstat with h2 | h2 <;>
          simp [LegacyShopApi.Order.can_be_cancelled, h2]
      exact ⟨LegacyShopApi.ServiceError.businessValidation
        "Order cannot be cancelled in status", by
        simp only [LegacyShopApi.cancel_order, horder, hcb, Bool.not_false, if_true]⟩
    · intro hstat
      have hc : order.can_be_cancelled = true := (can_be_cancelled_iff order).mpr hstat
      have hvoid : ∃ dbv, LegacyShopApi.void_if_authorized
          ((db.itemsOfOrder order.id).foldl LegacyShopApi.restore_stock_step db)
          order.id = .ok dbv := by
        unfold LegacyShopApi.void_if_authorized
        have hfp1 : LegacyShopApi.DB.findPaymentByOrderId
            ((db.itemsOfOrder order.id).foldl LegacyShopApi.restore_stock_step db)
            order.id = db.payments.find? (fun p => p.order_id == order.id) := by
          unfold LegacyShopApi.DB.findPaymentByOrderId
          rw [hfoldpay]
        rw [hfp1]
        cases hfp : db.payments.find? (fun p => p.order_id == order.id) with
        | none => exact ⟨_, rfl⟩
        | some payment =>
          dsimp only
          by_cases ha : (payment.status == LegacyShopApi.PaymentStatus.AUTHORIZED) = true
          · rw [if_pos ha]
            have hmemp : payment ∈ db.payments := List.mem_of_find?_eq_some hfp
            have hfind2 : LegacyShopApi.DB.findPaymentById
                ((db.itemsOfOrder order.id).foldl LegacyShopApi.restore_stock_step db)
                payment.id = db.payments.find? (fun p => p.id == payment.id) := by
              unfold LegacyShopApi.DB.findPaymentById
              rw [hfoldpay]
            have hsome : (db.payments.find? (fun p => p.id == payment.id)).isSome := by
              rw [List.find?_isSome]
              exact ⟨payment, hmemp, by simp⟩
            obtain ⟨q, hq⟩ := Option.isSome_iff_exists.mp hsome
            have hqpred : q.id = payment.id := by simpa using List.find?_some hq
            have hqmem : q ∈ db.payments := List.mem_of_find?_eq_some hq
            have hqeq : q = payment :=
              pairwise_key_unique (fun p => p.id) hpair hqmem hmemp hqpred
            subst hqeq
            unfold LegacyShopApi.void_payment
            rw [hfind2, hq]
            dsimp only
            simp only [LegacyShopApi.Payment.void, ha, if_true]
            exact ⟨_, rfl⟩
          · rw [if_neg ha]
            exact ⟨_, rfl⟩
      obtain ⟨dbv, hv⟩ := hvoid
      cases hrun : LegacyShopApi.cancel_order db oid with
      | error e =>
        exfalso
        simp only [LegacyShopApi.cancel_order, horder, hc, Bool.not_true,
          Bool.false_eq_true, if_false, hv, LegacyShopApi.Order.cancel, if_true] at hrun
        cases hrun
      | ok pr =>
        obtain ⟨db2v, respv⟩ := pr
        exact ⟨db2v, respv, rfl⟩
  · -- (4) cancellation only moves statuses forward
    intro db db2 oid resp h
    exact cancel_order_evolves db db2 oid resp h
  · -- (5) authorization only moves statuses forward
    intro db oid gw
    exact authorize_payment_evolves db oid gw

/-- Witness for C5 (amended) at concrete stores: reject authorize on a
cancelled order (`fastapi_legacyshop`), gateway success marks a pending
order paid, cancel succeeds on a paid order, and both operations only move
statuses forward. -/
theorem c5_amended_witness :
    FastapiLegacyshop.authorize_payment c5wdb 1 =
      .error "Cannot authorize payment for order in status" ∧
    (((LegacyShopApi.authorize_payment c2db 1
        [LegacyShopApi.GatewayOutcome.success "AUTH-9"]).1.findOrderById 1).map
      (fun o => o.status)) = some LegacyShopApi.OrderStatus.PAID ∧
    (∃ db2 resp, LegacyShopApi.cancel_order c5db 1 = .ok (db2, resp)) ∧
    (∃ o ∈ c5db.orders, orderEvolves o ⟨1, 1, .CANCELLED, none, 100, 0, 100⟩) ∧
    (∃ o ∈ c5db.orders, orderEvolves o ⟨1, 1, .PAID, none, 100, 0, 100⟩) :=
  ⟨c5_amended.1 c5wdb 1 ⟨1, .CANCELLED⟩ rfl (by decide),
   c5_amended.2.1 c2db 1 "AUTH-9" [] ⟨1, 1, .PENDING, none, 100, 0, 100⟩ rfl rfl rfl,
   (c5_amended.2.2.1 c5db 1 ⟨1, 1, .PAID, none, 100, 0, 100⟩ rfl (by decide)).2
     (Or.inr rfl),
   c5_amended.2.2.2.1 c5db c5db2ex 1 c5respex rfl
     ⟨1, 1, .CANCELLED, none, 100, 0, 100⟩ (by decide),
   c5_amended.2.2.2.2 c5db 1 [] ⟨1, 1, .PAID, none, 100, 0, 100⟩ (by decide)⟩

/-! ## Order-creation pipeline specification (`legacyshop-api`) -/

/-- The empty item list requests nothing. -/
theorem sumQty_nil (pid : ℕ) : sumQty [] pid = 0 := rfl

/-- Requested quantity of a `cons`, split by whether the head targets the
product. -/
theorem sumQty_cons (it : LegacyShopApi.OrderItem) (rest : List LegacyShopApi.OrderItem)
    (pid : ℕ) :
    sumQty (it :: rest) pid =
      (if it.product_id == pid then it.quantity else 0) + sumQty rest pid := by
  unfold sumQty
  by_cases h : (it.product_id == pid) = true <;> simp [List.filter_cons, h]

/-- Customer resolution touches only the customer table and its counter. -/
theorem find_or_create_customer_spec (db : LegacyShopApi.DB) (email : String) :
    (LegacyShopApi.find_or_create_customer db email).1.products = db.products ∧
    (LegacyShopApi.find_or_create_customer db email).1.orders = db.orders ∧
    (LegacyShopApi.find_or_create_customer db email).1.order_items = db.order_items ∧
    (LegacyShopApi.find_or_create_customer db email).1.payments = db.payments ∧
    (LegacyShopApi.find_or_create_customer db email).1.next_order_id = db.next_order_id := by
  unfold LegacyShopApi.find_or_create_customer
  cases db.customers.find? (fun c => c.email == email) <;>
    exact ⟨rfl, rfl, rfl, rfl, rfl⟩

/-- Processing one line item appends exactly one snapshot row (with a
quantized subtotal) and decrements the targeted product's stock, touching
nothing else.  Distinct product ids let the constant row replacement of
the source be read as a per-row decrement. -/
theorem process_order_item_spec (db db2 : LegacyShopApi.DB)
    (order : LegacyShopApi.Order) (r : LegacyShopApi.OrderItemRequest)
    (hdistinct : db.products.Pairwise (fun a b => a.id ≠ b.id))
    (h : LegacyShopApi.process_order_item db order r = .ok db2) :
    ∃ item : LegacyShopApi.OrderItem,
      db2.order_items = db.order_items ++ [item] ∧
      item.order_id = order.id ∧ CentMultiple item.subtotal ∧
      db2.products = db.products.map (fun p =>
        if p.id == item.product_id
        then { p with stock_quantity := p.stock_quantity - item.quantity } else p) ∧
      db2.orders = db.orders ∧ db2.customers = db.customers ∧
      db2.payments = db.payments ∧
      db2.idempotency_records = db.idempotency_records ∧
      db2.audit_logs = db.audit_logs ∧
      db2.next_customer_id = db.next_customer_id ∧
      db2.next_order_id = db.next_order_id ∧
      db2.next_payment_id = db.next_payment_id := by
  unfold LegacyShopApi.process_order_item at h
  cases hfp : db.findProductBySku r.productSku with
  | none => rw [hfp] at h; cases h
  | some product =>
    simp only [hfp] at h
    by_cases hact : product.active = true
    · simp only [hact, Bool.not_true, Bool.false_eq_true, if_false] at h
      by_cases hstock : product.stock_quantity < r.quantity
      · rw [if_pos hstock] at h
        cases h
      · rw [if_neg hstock] at h
        simp only [LegacyShopApi.Product.decrement_stock, if_neg hstock,
          Except.ok.injEq] at h
        subst h
        refine ⟨⟨order.id, product.id, product.sku, product.name, r.quantity,
            product.price, pyRound2 (product.price * (r.quantity : ℚ))⟩,
          rfl, rfl, pyRound2_centMultiple _, ?_, rfl, rfl, rfl, rfl, rfl, rfl, rfl, rfl⟩
        show (db.updateProduct product.id
            (fun _ => { product with stock_quantity := product.stock_quantity - r.quantity })).products = _
        unfold LegacyShopApi.DB.updateProduct
        have hmem : product ∈ db.products := List.mem_of_find?_eq_some hfp
        refine List.map_congr_left (fun p hp => ?_)
        by_cases hid : (p.id == product.id) = true
        · have hpeq : p = product :=
            pairwise_key_unique (fun q => q.id) hdistinct hp hmem (by simpa using hid)
          subst hpeq
          simp [hid]
        · simp [hid]
    · have haf : product.active = false := by
        cases hA : product.active
        · rfl
        · exact absurd hA hact
      rw [haf] at h
      cases h

/-- Mapping an id-preserving row transformation keeps product keys
pairwise distinct. -/
theorem pairwise_ids_map (l : List LegacyShopApi.Product)
    (f : LegacyShopApi.Product → LegacyShopApi.Product)
    (hf : ∀ p, (f p).id = p.id)
    (h : l.Pairwise (fun a b => a.id ≠ b.id)) :
    (l.map f).Pairwise (fun a b => a.id ≠ b.id) := by
  rw [List.pairwise_map]
  exact h.imp (fun hab => by rw [hf, hf]; exact hab)

/-- The item loop of `create_order` appends one snapshot row per request,
decrements each product's stock by the total requested quantity, and
touches nothing else. -/
theorem process_items_spec :
    ∀ (reqs : List LegacyShopApi.OrderItemRequest) (db db3 : LegacyShopApi.DB)
      (order : LegacyShopApi.Order),
      db.products.Pairwise (fun a b => a.id ≠ b.id) →
      LegacyShopApi.process_items order db reqs = .ok db3 →
      ∃ new : List LegacyShopApi.OrderItem,
        db3.order_items = db.order_items ++ new ∧
        (∀ it ∈ new, it.order_id = order.id ∧ CentMultiple it.subtotal) ∧
        db3.products = db.products.map (fun p =>
          { p with stock_quantity := p.stock_quantity - sumQty new p.id }) ∧
        db3.orders = db.orders ∧ db3.customers = db.customers ∧
        db3.payments = db.payments ∧
        db3.idempotency_records = db.idempotency_records ∧
        db3.audit_logs = db.audit_logs ∧
        db3.next_customer_id = db.next_customer_id ∧
        db3.next_order_id = db.next_order_id ∧
        db3.next_payment_id = db.next_payment_id
  | [], db, db3, order, hdist, h => by
    unfold LegacyShopApi.process_items at h
    simp only [Except.ok.injEq] at h
    subst h
    refine ⟨[], by simp, by simp, ?_, rfl, rfl, rfl, rfl, rfl, rfl, rfl, rfl⟩
    have hfun : (fun p : LegacyShopApi.Product =>
        { p with stock_quantity := p.stock_quantity - sumQty [] p.id }) =
        fun p : LegacyShopApi.Product => p := by
      funext p
      rw [sumQty_nil, sub_zero]
    rw [hfun, List.map_id']
  | r :: rs, db, db3, order, hdist, h => by
    unfold LegacyShopApi.process_items at h
    cases hstep : LegacyShopApi.process_order_item db order r with
    | error e => rw [hstep] at h; cases h
    | ok db2 =>
      rw [hstep] at h
      obtain ⟨item, hoi, hoid, hcm, hprod, hords, hcust, hpay, hidem, haud, hc1, hc2, hc3⟩ :=
        process_order_item_spec db db2 order r hdist hstep
      have hdist2 : db2.products.Pairwise (fun a b => a.id ≠ b.id) := by
        rw [hprod]
        refine pairwise_ids_map _ _ (fun p => ?_) hdist
        by_cases hx : (p.id == item.product_id) = true <;> simp [hx]
      obtain ⟨new, h1, h2, h3, h4, h5, h6, h7, h8, h9, h10, h11⟩ :=
        process_items_spec rs db2 db3 order hdist2 h
      refine ⟨item :: new, ?_, ?_, ?_, h4.trans hords, h5.trans hcust, h6.trans hpay,
        h7.trans hidem, h8.trans haud, h9.trans hc1, h10.trans hc2, h11.trans hc3⟩
      · rw [h1, hoi]
        simp
      · intro it hit
        rcases List.mem_cons.mp hit with rfl | hmm2
        · exact ⟨hoid, hcm⟩
        · exact h2 it hmm2
      · rw [h3, hprod, List.map_map]
        refine List.map_congr_left (fun p hp => ?_)
        simp only [Function.comp_apply]
        by_cases hx : (p.id == item.product_id) = true
        · have hpe : p.id = item.product_id := by simpa using hx
          have hbe : (item.product_id == p.id) = true := by simp [hpe]
          simp only [if_pos hx, sumQty_cons, hbe, if_true]
          simp only [LegacyShopApi.Product.mk.injEq, true_and, and_true]
          rw [hpe]
          ring
        · have hne : item.product_id ≠ p.id := by
            intro hEq
            exact hx (by simp [hEq])
          simp only [if_neg hx, sumQty_cons]
          rw [if_neg (by simpa using hne), zero_add]

/-- Filtering an append whose left part fails the predicate and whose
right part satisfies it yields the right part. -/
theorem filter_append_eq_right {α : Type} (p : α → Bool) (l1 l2 : List α)
    (h1 : ∀ a ∈ l1, p a = false) (h2 : ∀ a ∈ l2, p a = true) :
    (l1 ++ l2).filter p = l2 := by
  rw [List.filter_append, List.filter_eq_nil_iff.mpr (fun a ha => by simp [h1 a ha]),
    List.filter_eq_self.mpr h2, List.nil_append]

/-- Searching an append whose left part fails the predicate searches the
right part. -/
theorem find?_append_of_none {α : Type} (p : α → Bool) (l1 l2 : List α)
    (h1 : ∀ a ∈ l1, p a = false) : (l1 ++ l2).find? p = l2.find? p := by
  induction l1 with
  | nil => rfl
  | cons a t ih =>
    rw [List.cons_append, List.find?_cons_of_neg _ (by simp [h1 a (by simp)]),
      ih (fun b hb => h1 b (by simp [hb]))]

/-- Full specification of an accepted `create_order` run on a well-formed
store (fresh idempotency key and order id, pairwise-distinct product ids):
one `PENDING` order row and its snapshot items are appended, stock is
decremented by exactly the requested quantities, payments are untouched,
and the totals satisfy `total = subtotal - discount ≥ 0.01` with the
discount computed by the discount engine, all quantized. -/
theorem create_order_ok_spec (db db6 : LegacyShopApi.DB)
    (request : LegacyShopApi.OrderCreateRequest) (key : Option String)
    (resp : LegacyShopApi.OrderResponse)
    (hkey : key.bind (fun k => db.findOrderByKey k) = none)
    (hitems : ∀ it ∈ db.order_items, it.order_id ≠ db.next_order_id)
    (horders : ∀ o ∈ db.orders, o.id ≠ db.next_order_id)
    (hprodids : db.products.Pairwise (fun a b => a.id ≠ b.id))
    (h : LegacyShopApi.create_order db request key = .ok (db6, resp)) :
    ∃ (new : List LegacyShopApi.OrderItem) (orderF : LegacyShopApi.Order),
      db6.orders = db.orders ++ [orderF] ∧
      db6.order_items = db.order_items ++ new ∧
      db6.payments = db.payments ∧
      db6.products = db.products.map (fun p =>
        { p with stock_quantity := p.stock_quantity - sumQty new p.id }) ∧
      (∀ it ∈ new, it.order_id = db.next_order_id ∧ CentMultiple it.subtotal) ∧
      orderF.id = db.next_order_id ∧
      orderF.status = LegacyShopApi.OrderStatus.PENDING ∧
      orderF.subtotal = (new.map (fun it => it.subtotal)).sum ∧
      orderF.discount_amount = LegacyShopApi.calculate_discount orderF.subtotal ∧
      orderF.total = orderF.subtotal - orderF.discount_amount ∧
      1/100 ≤ orderF.total ∧
      resp.id = orderF.id ∧ resp.subtotal = orderF.subtotal ∧
      resp.discountAmount = orderF.discount_amount ∧ resp.total = orderF.total ∧
      resp.status = orderF.status ∧ resp.items = new := by
  unfold LegacyShopApi.create_order at h
  rw [hkey] at h
  rcases hF : LegacyShopApi.find_or_create_customer db request.customerEmail with
    ⟨db1, customer⟩
  obtain ⟨hf1, hf2, hf3, hf4, hf5⟩ := find_or_create_customer_spec db request.customerEmail
  rw [hF] at h hf1 hf2 hf3 hf4 hf5
  simp only at h hf1 hf2 hf3 hf4 hf5
  obtain ⟨o0, ho0⟩ : ∃ o : LegacyShopApi.Order,
      (⟨db1.next_order_id, customer.id, .PENDING, key, 0, 0, 0⟩ :
        LegacyShopApi.Order) = o := ⟨_, rfl⟩
  simp only [ho0] at h
  obtain ⟨db2v, hdb2v⟩ : ∃ d : LegacyShopApi.DB,
      ({ db1 with orders := db1.orders ++ [o0],
                  next_order_id := db1.next_order_id + 1 } :
        LegacyShopApi.DB) = d := ⟨_, rfl⟩
  simp only [hdb2v] at h
  cases hpi : LegacyShopApi.process_items o0 db2v request.items with
  | error e => rw [hpi] at h; cases h
  | ok db3 =>
    rw [hpi] at h
    have hd2 : db2v.products.Pairwise (fun a b => a.id ≠ b.id) := by
      have : db2v.products = db.products := by rw [← hdb2v]; exact hf1
      rw [this]
      exact hprodids
    obtain ⟨new, hni, hnall, hnprod, hnorders, hncust, hnpay, hnidem, hnaud,
      hnc1, hnc2, hnc3⟩ := process_items_spec request.items db2v db3 o0 hd2 hpi
    have hoid0 : o0.id = db.next_order_id := by rw [← ho0]; exact hf5
    have hitemsEq : db3.itemsOfOrder db1.next_order_id = new := by
      unfold LegacyShopApi.DB.itemsOfOrder
      have hdb2items : db2v.order_items = db.order_items := by rw [← hdb2v]; exact hf3
      rw [hni, hdb2items]
      refine filter_append_eq_right _ _ _ (fun a ha => ?_) (fun a ha => ?_)
      · rw [beq_eq_false_iff_ne, hf5]
        exact hitems a ha
      · rw [(hnall a ha).1, hoid0, hf5]
        exact beq_self_eq_true _
    simp only [hitemsEq] at h
    set orderF : LegacyShopApi.Order :=
      (o0.calculate_totals new).apply_discount new
        (LegacyShopApi.calculate_discount (o0.calculate_totals new).subtotal) with horderF
    have hstat : orderF.status = LegacyShopApi.OrderStatus.PENDING := by
      rw [horderF]
      show o0.status = LegacyShopApi.OrderStatus.PENDING
      rw [← ho0]
    have hSdef : orderF.subtotal = (new.map (fun it => it.subtotal)).sum := rfl
    have hScm : CentMultiple orderF.subtotal := by
      rw [hSdef]
      exact centMultiple_listSum (fun q hq => by
        rcases List.mem_map.mp hq with ⟨it, hitm, hq2⟩
        rw [← hq2]
        exact (hnall it hitm).2)
    have hDdef : orderF.discount_amount =
        pyRound2 (LegacyShopApi.calculate_discount orderF.subtotal) := rfl
    have hDisc : orderF.discount_amount =
        LegacyShopApi.calculate_discount orderF.subtotal := by
      rw [hDdef, pyRound2_eq_self (calculate_discount_centMultiple _)]
    have hDcm : CentMultiple orderF.discount_amount := by
      rw [hDisc]
      exact calculate_discount_centMultiple _
    have hTdef : orderF.total =
        pyRound2 (orderF.subtotal - orderF.discount_amount) := rfl
    have hTot : orderF.total = orderF.subtotal - orderF.discount_amount := by
      rw [hTdef, pyRound2_eq_self (centMultiple_sub hScm hDcm)]
    have hfido : orderF.id = db.next_order_id := by
      rw [horderF]
      show o0.id = db.next_order_id
      exact hoid0
    by_cases hguard : orderF.total < 1/100
    · rw [if_pos hguard] at h
      cases h
    · rw [if_neg hguard] at h
      simp only [Except.ok.injEq, Prod.mk.injEq] at h
      obtain ⟨hdb6, hresp⟩ := h
      subst hdb6
      subst hresp
      have hordersEq :
          (db3.updateOrder orderF.id (fun _ => orderF)).orders = db.orders ++ [orderF] := by
        simp only [LegacyShopApi.DB.updateOrder]
        have hdb2orders : db2v.orders = db.orders ++ [o0] := by
          rw [← hdb2v]
          simp only
          rw [hf2]
        rw [hnorders, hdb2orders, List.map_append]
        congr 1
        · rw [List.map_congr_left (fun o ho => ?_), List.map_id']
          have hne : (o.id == orderF.id) = false := by
            rw [beq_eq_false_iff_ne, hfido]
            exact horders o ho
          simp [hne]
        · simp only [List.map_cons, List.map_nil]
          have heq : (o0.id == orderF.id) = true := by
            rw [hoid0, hfido]
            exact beq_self_eq_true _
          simp [heq]
      have hitemsEq2 :
          (db3.updateOrder orderF.id (fun _ => orderF)).order_items =
            db.order_items ++ new := by
        simp only [LegacyShopApi.DB.updateOrder]
        have hdb2items : db2v.order_items = db.order_items := by rw [← hdb2v]; exact hf3
        rw [hni, hdb2items]
      have hpayEq :
          (db3.updateOrder orderF.id (fun _ => orderF)).payments = db.payments := by
        simp only [LegacyShopApi.DB.updateOrder]
        have hdb2pay : db2v.payments = db.payments := by rw [← hdb2v]; exact hf4
        rw [hnpay, hdb2pay]
      have hprodEq :
          (db3.updateOrder orderF.id (fun _ => orderF)).products =
            db.products.map (fun p =>
              { p with stock_quantity := p.stock_quantity - sumQty new p.id }) := by
        simp only [LegacyShopApi.DB.updateOrder]
        have hdb2prod : db2v.products = db.products := by rw [← hdb2v]; exact hf1
        rw [hnprod, hdb2prod]
      have hnewall : ∀ it ∈ new,
          it.order_id = db.next_order_id ∧ CentMultiple it.subtotal := by
        intro it hit
        refine ⟨?_, (hnall it hit).2⟩
        rw [(hnall it hit).1]
        exact hoid0
      have hfilterNew : ∀ l : List LegacyShopApi.OrderItem,
          l = db.order_items ++ new →
          l.filter (fun it => it.order_id == orderF.id) = new := by
        intro l hl
        rw [hl]
        refine filter_append_eq_right _ _ _ (fun a ha => ?_) (fun a ha => ?_)
        · rw [beq_eq_false_iff_ne, hfido]
          exact hitems a ha
        · rw [(hnall a ha).1, hoid0, ← hfido]
          exact beq_self_eq_true _
      clear horderF hdb2v ho0 hkey hF hpi hitemsEq hnc1 hnc2 hnc3
        hnidem hnaud hncust hni hnall hnorders hnpay hnprod hd2
      rcases key with _ | k <;>
      · refine ⟨new, orderF, hordersEq, hitemsEq2, hpayEq, hprodEq, hnewall,
          hfido, hstat, hSdef, hDisc, hTot, not_lt.mp hguard, rfl, rfl, rfl, rfl, rfl, ?_⟩
        simp only [LegacyShopApi.order_to_response, LegacyShopApi.DB.itemsOfOrder]
        exact hfilterNew _ hitemsEq2

/-! ## Claim C7 — the money equation of accepted orders -/

/-- Concrete accepted run of the `legacyshop-api` create-order pipeline,
shared by the round-trip witnesses. -/
theorem c7w_run :
    LegacyShopApi.create_order c7wdb c7wrequest none = .ok (c7wdb6, c7wresp) := by
  norm_num [c7wdb, c7wrequest, c7wdb6, c7wresp, LegacyShopApi.create_order,
    LegacyShopApi.find_or_create_customer, LegacyShopApi.process_items,
    LegacyShopApi.process_order_item, LegacyShopApi.DB.findProductBySku,
    LegacyShopApi.Product.decrement_stock, LegacyShopApi.DB.updateProduct,
    LegacyShopApi.DB.itemsOfOrder, LegacyShopApi.DB.updateOrder,
    LegacyShopApi.Order.calculate_totals, LegacyShopApi.Order.apply_discount,
    LegacyShopApi.calculate_discount, LegacyShopApi.order_to_response,
    LegacyShopApi.DB.findOrderByKey, pyRound2, roundHalfEvenCents, quantize2,
    roundHalfUpCents, LegacyShopApi.tier1_threshold,
    LegacyShopApi.tier2_threshold, LegacyShopApi.tier3_threshold,
    LegacyShopApi.tier1_discount, LegacyShopApi.tier2_discount,
    LegacyShopApi.tier3_discount]

/-- C7: in `legacyshop-api`, every order accepted by `create_order` on a
well-formed store satisfies `total = subtotal - discount` and
`total ≥ 0.01` (both in the response and in the stored row; a computed
total below one cent is rejected before commit), and the equation is
preserved by every later operation on the order: cancellation and payment
authorization keep every order row's money fields. -/
theorem c7_money_invariant :
    (∀ (db db6 : LegacyShopApi.DB) (request : LegacyShopApi.OrderCreateRequest)
        (key : Option String) (resp : LegacyShopApi.OrderResponse),
      key.bind (fun k => db.findOrderByKey k) = none →
      (∀ it ∈ db.order_items, it.order_id ≠ db.next_order_id) →
      (∀ o ∈ db.orders, o.id ≠ db.next_order_id) →
      db.products.Pairwise (fun a b => a.id ≠ b.id) →
      LegacyShopApi.create_order db request key = .ok (db6, resp) →
      resp.total = resp.subtotal - resp.discountAmount ∧ 1/100 ≤ resp.total ∧
        ∃ orderF, db6.orders = db.orders ++ [orderF] ∧ moneyInvariant orderF) ∧
    (∀ (db db2 : LegacyShopApi.DB) (oid : ℕ) (resp : LegacyShopApi.OrderResponse),
      LegacyShopApi.cancel_order db oid = .ok (db2, resp) →
      (∀ o ∈ db.orders, moneyInvariant o) →
      ∀ o2 ∈ db2.orders, moneyInvariant o2) ∧
    (∀ (db : LegacyShopApi.DB) (oid : ℕ) (gw : List LegacyShopApi.GatewayOutcome),
      (∀ o ∈ db.orders, moneyInvariant o) →
      ∀ o2 ∈ (LegacyShopApi.authorize_payment db oid gw).1.orders,
        moneyInvariant o2) := by
  refine ⟨?_, ?_, ?_⟩
  · intro db db6 request key resp hkey hitems horders hprodids h
    obtain ⟨new, orderF, ho, hoi, hop, hopr, hall, hid, hst, hsub, hdisc, htot,
      hle, hrid, hrs, hrd, hrt, hrst, hri⟩ :=
      create_order_ok_spec db db6 request key resp hkey hitems horders hprodids h
    refine ⟨?_, ?_, orderF, ho, htot, hle⟩
    · rw [hrt, hrs, hrd]
      exact htot
    · rw [hrt]
      exact hle
  · intro db db2 oid resp h hinv o2 ho2
    obtain ⟨o, ho, hoid, hs, hd, ht, hsf⟩ := cancel_order_evolves db db2 oid resp h o2 ho2
    obtain ⟨heq, hge⟩ := hinv o ho
    constructor
    · rw [ht, hs, hd]
      exact heq
    · rw [ht]
      exact hge
  · intro db oid gw hinv o2 ho2
    obtain ⟨o, ho, hoid, hs, hd, ht, hsf⟩ := authorize_payment_evolves db oid gw o2 ho2
    obtain ⟨heq, hge⟩ := hinv o ho
    constructor
    · rw [ht, hs, hd]
      exact heq
    · rw [ht]
      exact hge

/-- Witness for C7 at a concrete accepted order (`150 − 15 = 135 ≥ 0.01`). -/
theorem c7_money_invariant_witness :
    c7wresp.total = c7wresp.subtotal - c7wresp.discountAmount ∧
      1/100 ≤ c7wresp.total ∧
      ∃ orderF, c7wdb6.orders = c7wdb.orders ++ [orderF] ∧ moneyInvariant orderF :=
  c7_money_invariant.1 c7wdb c7wdb6 c7wrequest none c7wresp rfl
    (by simp [c7wdb]) (by simp [c7wdb]) (by simp [c7wdb]) c7w_run

/-! ## Claim C8 — create-then-cancel is a stock round trip -/

/-- Mapping a function that fixes every element of a list is the identity. -/
theorem map_eq_self_of {α : Type} (f : α → α) (l : List α)
    (h : ∀ a ∈ l, f a = a) : l.map f = l := by
  induction l with
  | nil => rfl
  | cons a t ih =>
    rw [List.map_cons, h a (by simp), ih (fun b hb => h b (by simp [hb]))]

/-- One stock-restoration step increments every product row matching the
item's product id by the item's quantity, and no other row. -/
theorem lsa_restore_step_products (acc : LegacyShopApi.DB)
    (it : LegacyShopApi.OrderItem) :
    (LegacyShopApi.restore_stock_step acc it).products =
      acc.products.map (fun p =>
        if p.id == it.product_id then
          { p with stock_quantity := p.stock_quantity + it.quantity }
        else p) := by
  unfold LegacyShopApi.restore_stock_step
  cases hf : acc.findProductById it.product_id with
  | none =>
    have hnone := List.find?_eq_none.mp hf
    symm
    refine map_eq_self_of _ _ (fun p hp => ?_)
    rw [if_neg (hnone p hp)]
  | some product => rfl

/-- Folding the restoration step over line items adds, per product row, the
total quantity the items request of that product. -/
theorem lsa_restore_products (l : List LegacyShopApi.OrderItem) :
    ∀ db : LegacyShopApi.DB,
      (l.foldl LegacyShopApi.restore_stock_step db).products =
        db.products.map (fun p =>
          { p with stock_quantity := p.stock_quantity + sumQty l p.id }) := by
  induction l with
  | nil =>
    intro db
    symm
    refine map_eq_self_of _ _ (fun p hp => ?_)
    simp [sumQty_nil]
  | cons it rest ih =>
    intro db
    rw [List.foldl_cons, ih, lsa_restore_step_products, List.map_map]
    refine List.map_congr_left (fun p hp => ?_)
    by_cases hmatch : it.product_id = p.id
    · have h1 : (p.id == it.product_id) = true := by
        rw [hmatch]
        exact beq_self_eq_true _
      have h2 : (it.product_id == p.id) = true := by
        rw [hmatch]
        exact beq_self_eq_true _
      simp only [Function.comp_apply, if_pos h1, sumQty_cons, if_pos h2,
        LegacyShopApi.Product.mk.injEq, true_and, and_true]
      ring
    · have h1 : ¬((p.id == it.product_id) = true) := by
        simp only [beq_iff_eq]
        exact fun hh => hmatch hh.symm
      have h2 : ¬((it.product_id == p.id) = true) := by
        simp only [beq_iff_eq]
        exact hmatch
      simp only [Function.comp_apply, if_neg h1, sumQty_cons, if_neg h2, zero_add]

/-- C8: in `legacyshop-api`, cancelling an order straight after it was
accepted restores every product's stock to exactly its value before the
order was created - the per-line decrement at creation equals the
increment at cancellation. -/
theorem c8_stock_round_trip (db db6 : LegacyShopApi.DB)
    (request : LegacyShopApi.OrderCreateRequest) (key : Option String)
    (resp : LegacyShopApi.OrderResponse)
    (hkey : key.bind (fun k => db.findOrderByKey k) = none)
    (hitems : ∀ it ∈ db.order_items, it.order_id ≠ db.next_order_id)
    (horders : ∀ o ∈ db.orders, o.id ≠ db.next_order_id)
    (hprodids : db.products.Pairwise (fun a b => a.id ≠ b.id))
    (hpay : ∀ p ∈ db.payments, p.order_id ≠ db.next_order_id)
    (h : LegacyShopApi.create_order db request key = .ok (db6, resp)) :
    ∃ (db7 : LegacyShopApi.DB) (resp2 : LegacyShopApi.OrderResponse),
      LegacyShopApi.cancel_order db6 resp.id = .ok (db7, resp2) ∧
      db7.products = db.products := by
  obtain ⟨new, orderF, ho, hoi, hop, hopr, hall, hid, hst, hsub, hdisc, htot,
    hle, hrid, hrs, hrd, hrt, hrst, hri⟩ :=
    create_order_ok_spec db db6 request key resp hkey hitems horders hprodids h
  have hfind6 : db6.findOrderById orderF.id = some orderF := by
    unfold LegacyShopApi.DB.findOrderById
    rw [ho, find?_append_of_none _ _ _ (fun o hoo => by
      rw [beq_eq_false_iff_ne, hid]
      exact horders o hoo)]
    simp
  have hcan : orderF.can_be_cancelled = true := by
    unfold LegacyShopApi.Order.can_be_cancelled
    rw [hst]
    rfl
  have hitems6 : db6.itemsOfOrder orderF.id = new := by
    unfold LegacyShopApi.DB.itemsOfOrder
    rw [hoi]
    refine filter_append_eq_right _ _ _ (fun a ha => ?_) (fun a ha => ?_)
    · rw [beq_eq_false_iff_ne, hid]
      exact hitems a ha
    · rw [(hall a ha).1, hid]
      exact beq_self_eq_true _
  have hvoid : LegacyShopApi.void_if_authorized
      (new.foldl LegacyShopApi.restore_stock_step db6) orderF.id =
      .ok (new.foldl LegacyShopApi.restore_stock_step db6) := by
    unfold LegacyShopApi.void_if_authorized
    have hnone : (new.foldl LegacyShopApi.restore_stock_step
        db6).findPaymentByOrderId orderF.id = none := by
      unfold LegacyShopApi.DB.findPaymentByOrderId
      have hfold := foldl_preserves LegacyShopApi.restore_stock_step
        (fun d => d.payments) lsa_restore_payments new db6
      simp only at hfold
      rw [hfold, hop]
      refine List.find?_eq_none.mpr (fun p hp => ?_)
      simp only [beq_iff_eq]
      rw [hid]
      exact hpay p hp
    rw [hnone]
  have hcancel : orderF.cancel =
      .ok { orderF with status := LegacyShopApi.OrderStatus.CANCELLED } := by
    unfold LegacyShopApi.Order.cancel
    rw [if_pos hcan]
  unfold LegacyShopApi.cancel_order
  rw [hrid, hfind6]
  simp only [hcan, Bool.not_true, Bool.false_eq_true, if_false, hitems6, hvoid,
    hcancel]
  refine ⟨_, _, rfl, ?_⟩
  simp only [LegacyShopApi.DB.updateOrder]
  rw [lsa_restore_products, hopr, List.map_map]
  refine map_eq_self_of _ _ (fun p hp => ?_)
  rcases p with ⟨pid, psku, pname, pprice, pstock, pactive⟩
  simp only [Function.comp_apply, LegacyShopApi.Product.mk.injEq, true_and,
    and_true]
  ring

/-- Witness for C8: the concrete order of `c7w_run` is cancelled and the
catalog's stock returns to its original value. -/
theorem c8_stock_round_trip_witness :
    ∃ (db7 : LegacyShopApi.DB) (resp2 : LegacyShopApi.OrderResponse),
      LegacyShopApi.cancel_order c7wdb6 c7wresp.id = .ok (db7, resp2) ∧
      db7.products = c7wdb.products :=
  c8_stock_round_trip c7wdb c7wdb6 c7wrequest none c7wresp rfl (by simp [c7wdb])
    (by simp [c7wdb]) (by simp [c7wdb]) (by simp [c7wdb]) c7w_run

/-! ## Claim C9 — quantization of stored monetary values -/

/-- C9 counterexample: the `fastapi-rewrite` pipeline stores an unquantized
total (`66.67 × 3 = 200.01`, discount `15%` of it is `30.0015`, stored
total `170.0085` — not a whole number of cents), and the `legacyshop-api`
rounding is Python's `round` (half-to-even), not round-half-up:
`round(0.125, 2) = 0.12` while the spec's quantize gives `0.13`. -/
theorem c9_counterexample :
    (FastapiRewrite.create_order c9state c9request "key-c9" =
      ({ products := [⟨1, "Widget A", 6667/100, 7⟩],
         orders := [⟨1, "alice@example.com", .CREATED,
           [⟨1, 1, 1, "Widget A", 3, 6667/100⟩], 1700085/10000⟩],
         idempotency_records := [⟨"key-c9", 1⟩],
         order_id_counter := 2, order_item_id_counter := 2 },
       .ok ⟨1, "alice@example.com", .CREATED,
         [⟨1, 1, 1, "Widget A", 3, 6667/100⟩], 1700085/10000⟩) ∧
      ¬CentMultiple (1700085/10000 : ℚ)) ∧
    pyRound2 (1/8) ≠ specRound2 (1/8) := by
  refine ⟨⟨?_, ?_⟩, ?_⟩
  · norm_num [FastapiRewrite.create_order, FastapiRewrite.process_items,
      FastapiRewrite.calculate_discount, c9state, c9request]
  · rintro ⟨n, hn⟩
    rw [div_eq_div_iff (by norm_num) (by norm_num)] at hn
    have hZ : (1700085 * 100 : ℤ) = n * 10000 := by exact_mod_cast hn
    omega
  · norm_num [pyRound2, roundHalfEvenCents, specRound2, quantize2,
      roundHalfUpCents]

/-- C9 (amended): what does hold.  The `fastapi_legacyshop` `quantize_2` is
exactly the spec's round-half-up two-decimal quantization and always lands
on a whole number of cents; and in `legacyshop-api` every monetary value an
accepted order stores (line subtotals, subtotal, discount, total) is a
whole number of cents.  The rewrite variants store unquantized values and
`legacyshop-api` rounds half-to-even, not half-up (see the
counterexample). -/
theorem c9_amended :
    (∀ q : ℚ, FastapiLegacyshop.quantize_2 q = specRound2 q ∧
      CentMultiple (FastapiLegacyshop.quantize_2 q)) ∧
    (∀ (db db6 : LegacyShopApi.DB) (request : LegacyShopApi.OrderCreateRequest)
        (key : Option String) (resp : LegacyShopApi.OrderResponse),
      key.bind (fun k => db.findOrderByKey k) = none →
      (∀ it ∈ db.order_items, it.order_id ≠ db.next_order_id) →
      (∀ o ∈ db.orders, o.id ≠ db.next_order_id) →
      db.products.Pairwise (fun a b => a.id ≠ b.id) →
      LegacyShopApi.create_order db request key = .ok (db6, resp) →
      CentMultiple resp.subtotal ∧ CentMultiple resp.discountAmount ∧
        CentMultiple resp.total ∧ ∀ it ∈ resp.items, CentMultiple it.subtotal) := by
  constructor
  · intro q
    exact ⟨rfl, quantize2_centMultiple q⟩
  · intro db db6 request key resp hkey hitems horders hprodids h
    obtain ⟨new, orderF, ho, hoi, hop, hopr, hall, hid, hst, hsub, hdisc, htot,
      hle, hrid, hrs, hrd, hrt, hrst, hri⟩ :=
      create_order_ok_spec db db6 request key resp hkey hitems horders hprodids h
    have hsubcm : CentMultiple orderF.subtotal := by
      rw [hsub]
      exact centMultiple_listSum (fun x hx => by
        rcases List.mem_map.mp hx with ⟨it, hit, hx2⟩
        rw [← hx2]
        exact (hall it hit).2)
    have hdisccm : CentMultiple orderF.discount_amount := by
      rw [hdisc]
      exact calculate_discount_centMultiple _
    refine ⟨?_, ?_, ?_, ?_⟩
    · rw [hrs]
      exact hsubcm
    · rw [hrd]
      exact hdisccm
    · rw [hrt, htot]
      exact centMultiple_sub hsubcm hdisccm
    · intro it hit
      rw [hri] at hit
      exact (hall it hit).2

/-- Witness for C9 (amended): `quantize_2` at the half-cent tie `0.125`,
and the stored money of the concrete accepted order of `c7w_run`. -/
theorem c9_amended_witness :
    (FastapiLegacyshop.quantize_2 (1/8) = specRound2 (1/8) ∧
      CentMultiple (FastapiLegacyshop.quantize_2 (1/8))) ∧
    (CentMultiple c7wresp.subtotal ∧ CentMultiple c7wresp.discountAmount ∧
      CentMultiple c7wresp.total ∧
      ∀ it ∈ c7wresp.items, CentMultiple it.subtotal) :=
  ⟨c9_amended.1 (1/8),
   c9_amended.2 c7wdb c7wdb6 c7wrequest none c7wresp rfl (by simp [c7wdb])
     (by simp [c7wdb]) (by simp [c7wdb]) c7w_run⟩
